import Mathlib

/-! BLE clock peripheral.

A shallow embedding of `main.cpp`: the peripheral lifecycle manager
(`BLEProcess`) and the clock GATT service (`ClockService`).

The BLE stack itself (`BLE`, `Gap`, `GattServer`) is an external library.  It
is represented by a state `BLE` that holds

* the attribute store (`attrs`, one byte per value handle),
* the answer of `hasInitialized()`,
* a `script` with the error codes the stack will return to the next fallible
  calls (an exhausted script answers `BLE_ERROR_NONE`),
* the `trace` of every call the program has issued so far, oldest first.

Member functions become functions that take the object and the `BLE` state and
return the new `BLE` state (and the C++ return value, if any).  Diagnostic
`printf` output is not part of the model.
-/

namespace EsysFinal

/-! ## Transport -/

/-- Error code of the BLE API; zero is success, anything else a failure. -/
abbrev ble_error_t := Nat

/-- The success code of the BLE API. -/
def BLE_ERROR_NONE : ble_error_t := 0

/-- Attribute handle (`GattAttribute::Handle_t`). -/
abbrev Handle_t := Nat

/-- Handle of the legacy advertising set (`ble::LEGACY_ADVERTISING_HANDLE`). -/
def LEGACY_ADVERTISING_HANDLE : Nat := 0

/-- Calls the program issues, in the order they are recorded in `BLE.trace`.
`post_init_cb cb` is the invocation of the activation callback `cb`. -/
inductive Call where
  | hasInitialized
  | onEventsToProcess
  | init
  | onConnection
  | onDisconnection
  | setAdvertisingParameters (handle : Nat)
  | setAdvertisingPayload (handle : Nat) (name : String)
  | startAdvertising (handle : Nat)
  | addService
  | read (handle : Handle_t)
  | write (handle : Handle_t) (value : Nat) (local_only : Bool)
  | post_init_cb (cb : Nat)
  | onDataSent
  | onDataWritten
  | onDataRead
  | onUpdatesEnabled
  | onUpdatesDisabled
  | onConfirmationReceived
  | call_every (ms : Nat)
  deriving DecidableEq, Repr

/-- State of the BLE stack as the program sees it. -/
structure BLE where
  /-- Answer of `hasInitialized()`. -/
  initialized : Bool
  /-- Attribute store of the GATT server: the byte held at each value handle. -/
  attrs : Handle_t → Nat
  /-- Error codes the stack returns to the coming fallible calls. -/
  script : List ble_error_t
  /-- Calls issued so far, oldest first. -/
  trace : List Call

/-- A call that cannot fail: it is only recorded. -/
def BLE.record (ble : BLE) (c : Call) : BLE :=
  { ble with trace := ble.trace ++ [c] }

/-- A call that returns a `ble_error_t`: it is recorded and answered with the
next scripted error code. -/
def BLE.respond (ble : BLE) (c : Call) : ble_error_t × BLE :=
  (ble.script.headD BLE_ERROR_NONE,
    { ble with script := ble.script.tail, trace := ble.trace ++ [c] })

/-- The store `attrs` with the byte at `handle` replaced by `value`. -/
def setAttr (attrs : Handle_t → Nat) (handle : Handle_t) (value : Nat) : Handle_t → Nat :=
  fun h => if h = handle then value else attrs h

/-- The query `BLE::hasInitialized()`. -/
def BLE.hasInitialized (ble : BLE) : Bool × BLE :=
  (ble.initialized, ble.record Call.hasInitialized)

/-- The registration `BLE::onEventsToProcess(cb)`. -/
def BLE.onEventsToProcess (ble : BLE) : BLE :=
  ble.record Call.onEventsToProcess

/-- The call `BLE::init(obj, &when_init_complete)`; completion is delivered later. -/
def BLE.init (ble : BLE) : ble_error_t × BLE :=
  ble.respond Call.init

/-- The registration `Gap::onConnection`. -/
def Gap.onConnection (ble : BLE) : BLE :=
  ble.record Call.onConnection

/-- The registration `Gap::onDisconnection`. -/
def Gap.onDisconnection (ble : BLE) : BLE :=
  ble.record Call.onDisconnection

/-- The call `Gap::setAdvertisingParameters(handle, params)`. -/
def Gap.setAdvertisingParameters (ble : BLE) (handle : Nat) : ble_error_t × BLE :=
  ble.respond (Call.setAdvertisingParameters handle)

/-- The call `Gap::setAdvertisingPayload(handle, payload)`; the payload is the
flags field plus the device name. -/
def Gap.setAdvertisingPayload (ble : BLE) (handle : Nat) (name : String) : ble_error_t × BLE :=
  ble.respond (Call.setAdvertisingPayload handle name)

/-- The call `Gap::startAdvertising(handle)`. -/
def Gap.startAdvertising (ble : BLE) (handle : Nat) : ble_error_t × BLE :=
  ble.respond (Call.startAdvertising handle)

/-- Modelled from the spec: `readAttribute(handle) → Result<byte, Error>` of the
external GATT server (`GattServer::read`).  On success the destination receives
the stored byte; on failure it keeps its value. -/
def GattServer.read (server : BLE) (handle : Handle_t) (dst : Nat) : ble_error_t × Nat × BLE :=
  let r := server.respond (Call.read handle)
  if r.1 ≠ BLE_ERROR_NONE then (r.1, dst, r.2)
  else (r.1, server.attrs handle % 256, r.2)

/-- Modelled from the spec: `writeAttribute(handle, byte, local_only) → Result<(), Error>`
of the external GATT server (`GattServer::write`).  On success the byte is
stored at the handle; on failure the store is left as it was. -/
def GattServer.write (server : BLE) (handle : Handle_t) (value : Nat) (local_only : Bool) :
    ble_error_t × BLE :=
  let r := server.respond (Call.write handle value local_only)
  if r.1 ≠ BLE_ERROR_NONE then r
  else (r.1, { r.2 with attrs := setAttr r.2.attrs handle (value % 256) })

/-- The registration `GattServer::onDataSent`. -/
def GattServer.onDataSent (server : BLE) : BLE :=
  server.record Call.onDataSent

/-- The registration `GattServer::onDataWritten`. -/
def GattServer.onDataWritten (server : BLE) : BLE :=
  server.record Call.onDataWritten

/-- The registration `GattServer::onDataRead`. -/
def GattServer.onDataRead (server : BLE) : BLE :=
  server.record Call.onDataRead

/-- The registration `GattServer::onUpdatesEnabled`. -/
def GattServer.onUpdatesEnabled (server : BLE) : BLE :=
  server.record Call.onUpdatesEnabled

/-- The registration `GattServer::onUpdatesDisabled`. -/
def GattServer.onUpdatesDisabled (server : BLE) : BLE :=
  server.record Call.onUpdatesDisabled

/-- The registration `GattServer::onConfirmationReceived`. -/
def GattServer.onConfirmationReceived (server : BLE) : BLE :=
  server.record Call.onConfirmationReceived

/-- The scheduler call `EventQueue::call_every(ms, cb)`; it is recorded in the
same trace as the calls into the stack. -/
def EventQueue.call_every (env : BLE) (ms : Nat) : BLE :=
  env.record (Call.call_every ms)

/-! ## BLEProcess -/

/-- An `mbed::Callback<void(BLE&, events::EventQueue&)>`: empty, or a callable
identified by a number. -/
abbrev Callback := Option Nat

/-- The event passed to `when_init_complete`. -/
structure InitializationCompleteCallbackContext where
  error : ble_error_t

/-- Data members of `BLEProcess`; the event queue and the BLE interface are
references into the environment and are passed to the member functions. -/
structure BLEProcess where
  _post_init_cb : Callback
  _socket : Int

/-- The constructor `BLEProcess(event_queue, ble_interface, Socket)`. -/
def BLEProcess.ctor (Socket : Int) : BLEProcess :=
  { _post_init_cb := none, _socket := Socket }

/-- Subscription to the initialization event. -/
def BLEProcess.on_init (p : BLEProcess) (cb : Callback) : BLEProcess :=
  { p with _post_init_cb := cb }

/-- Initialize the ble interface; returns the C++ result and the new state. -/
def BLEProcess.start (_p : BLEProcess) (ble : BLE) : Bool × BLE :=
  let q := ble.hasInitialized
  if q.1 then (false, q.2)
  else
    let ble1 := q.2.onEventsToProcess
    let r := ble1.init
    if r.1 ≠ BLE_ERROR_NONE then (false, r.2)
    else (true, r.2)

/-- Start advertising the legacy set. -/
def BLEProcess.start_advertising (_p : BLEProcess) (ble : BLE) : Bool × BLE :=
  let r := Gap.startAdvertising ble LEGACY_ADVERTISING_HANDLE
  if r.1 ≠ BLE_ERROR_NONE then (false, r.2)
  else (true, r.2)

/-- The event passed to `when_disconnection`
(`Gap::DisconnectionCallbackParams_t`); the handler does not read it. -/
structure DisconnectionCallbackParams_t where
  handle : Nat
  reason : Nat

/-- Handler of the disconnection event: starts advertising again and drops
the result. -/
def BLEProcess.when_disconnection (p : BLEProcess) (ble : BLE)
    (_event : DisconnectionCallbackParams_t) : BLE :=
  (p.start_advertising ble).2

/-- Set the default advertising parameters on the legacy set. -/
def BLEProcess.set_advertising_parameters (_p : BLEProcess) (ble : BLE) : Bool × BLE :=
  let r := Gap.setAdvertisingParameters ble LEGACY_ADVERTISING_HANDLE
  if r.1 ≠ BLE_ERROR_NONE then (false, r.2)
  else (true, r.2)

/-- Set the advertising payload (flags and device name) on the legacy set. -/
def BLEProcess.set_advertising_data (_p : BLEProcess) (ble : BLE) : Bool × BLE :=
  let r := Gap.setAdvertisingPayload ble LEGACY_ADVERTISING_HANDLE "Final Project 2019"
  if r.1 ≠ BLE_ERROR_NONE then (false, r.2)
  else (true, r.2)

/-- Handler of the initialization-complete event: installs the connection
handlers, configures and starts advertising, then calls the activation
callback. -/
def BLEProcess.when_init_complete (p : BLEProcess) (ble : BLE)
    (event : InitializationCompleteCallbackContext) : BLE :=
  if event.error ≠ BLE_ERROR_NONE then ble
  else
    let ble1 := Gap.onConnection ble
    let ble2 := Gap.onDisconnection ble1
    let r1 := p.set_advertising_parameters ble2
    if !r1.1 then r1.2
    else
      let r2 := p.set_advertising_data r1.2
      if !r2.1 then r2.2
      else
        let r3 := p.start_advertising r2.2
        if !r3.1 then r3.2
        else
          match p._post_init_cb with
          | some cb => r3.2.record (Call.post_init_cb cb)
          | none => r3.2

/-! ## ClockService -/

/-- A `ReadWriteNotifyIndicateCharacteristic<uint8_t>`: its UUID, the initial
value given to the constructor and the value handle (`getValueHandle()`), which
the stack assigns at registration. -/
structure ReadWriteNotifyIndicateCharacteristic where
  uuid : String
  _value : Nat
  valueHandle : Handle_t

/-- Get the value of the characteristic from the server. -/
def ReadWriteNotifyIndicateCharacteristic.get (ch : ReadWriteNotifyIndicateCharacteristic)
    (server : BLE) (dst : Nat) : ble_error_t × Nat × BLE :=
  GattServer.read server ch.valueHandle dst

/-- Assign a new value to the characteristic on the server. -/
def ReadWriteNotifyIndicateCharacteristic.set (ch : ReadWriteNotifyIndicateCharacteristic)
    (server : BLE) (value : Nat) (local_only : Bool) : ble_error_t × BLE :=
  GattServer.write server ch.valueHandle value local_only

/-- Data members of `ClockService`; `_server` and `_event_queue` record whether
the pointer has been set. -/
structure ClockService where
  _hour_char : ReadWriteNotifyIndicateCharacteristic
  _minute_char : ReadWriteNotifyIndicateCharacteristic
  _second_char : ReadWriteNotifyIndicateCharacteristic
  _server : Bool
  _event_queue : Bool

/-- The constructor `ClockService()`: three characteristics with initial value 0,
no handle assigned yet, both pointers NULL. -/
def ClockService.ctor : ClockService :=
  { _hour_char := { uuid := "485f4145-52b9-4644-af1f-7a6b9322490f", _value := 0, valueHandle := 0 }
    _minute_char := { uuid := "0a924ca7-87cd-4699-a3bd-abdcd9cf126a", _value := 0, valueHandle := 0 }
    _second_char := { uuid := "8dd6a1b7-bc75-4741-8a26-264af75807de", _value := 0, valueHandle := 0 }
    _server := false
    _event_queue := false }

/-- Reply codes of the write authorization callback that the service uses. -/
inductive GattAuthCallbackReply_t where
  | AUTH_CALLBACK_REPLY_SUCCESS
  | AUTH_CALLBACK_REPLY_ATTERR_WRITE_NOT_PERMITTED
  | AUTH_CALLBACK_REPLY_ATTERR_INVALID_OFFSET
  | AUTH_CALLBACK_REPLY_ATTERR_INVALID_ATT_VAL_LENGTH
  deriving DecidableEq, Repr

/-- A write request submitted for authorization. `data` holds the payload
bytes; `len` is the length the stack reports (equal to `data.length` in a
request the stack builds). -/
structure GattWriteAuthCallbackParams where
  handle : Handle_t
  offset : Nat
  len : Nat
  data : List Nat
  authorizationReply : GattAuthCallbackReply_t

open GattAuthCallbackReply_t

/-- Handler called when a write request is received. It only fills in the
reply; the `BLE` state is threaded through to show that no call is made.
`data[0]` is read only after `len` has been found to be 1. -/
def ClockService.authorize_client_write (c : ClockService) (ble : BLE)
    (e : GattWriteAuthCallbackParams) : BLE × GattWriteAuthCallbackParams :=
  if e.offset ≠ 0 then
    (ble, { e with authorizationReply := AUTH_CALLBACK_REPLY_ATTERR_INVALID_OFFSET })
  else if e.len ≠ 1 then
    (ble, { e with authorizationReply := AUTH_CALLBACK_REPLY_ATTERR_INVALID_ATT_VAL_LENGTH })
  else if e.data.getD 0 0 ≥ 60 ∨
      (e.data.getD 0 0 ≥ 24 ∧ e.handle = c._hour_char.valueHandle) then
    (ble, { e with authorizationReply := AUTH_CALLBACK_REPLY_ATTERR_WRITE_NOT_PERMITTED })
  else
    (ble, { e with authorizationReply := AUTH_CALLBACK_REPLY_SUCCESS })

/-- Increment the hour counter. -/
def ClockService.increment_hour (c : ClockService) (ble : BLE) : BLE :=
  let hour : Nat := 0
  let g := c._hour_char.get ble hour
  if g.1 ≠ BLE_ERROR_NONE then g.2.2
  else
    let hour := (g.2.1 + 1) % 24 % 256
    let w := c._hour_char.set g.2.2 hour false
    if w.1 ≠ BLE_ERROR_NONE then w.2
    else w.2

/-- Increment the minute counter. -/
def ClockService.increment_minute (c : ClockService) (ble : BLE) : BLE :=
  let minute : Nat := 0
  let g := c._minute_char.get ble minute
  if g.1 ≠ BLE_ERROR_NONE then g.2.2
  else
    let minute := (g.2.1 + 1) % 60 % 256
    let w := c._minute_char.set g.2.2 minute false
    if w.1 ≠ BLE_ERROR_NONE then w.2
    else if minute = 0 then c.increment_hour w.2
    else w.2

/-- Increment the second counter. -/
def ClockService.increment_second (c : ClockService) (ble : BLE) : BLE :=
  let second : Nat := 0
  let g := c._second_char.get ble second
  if g.1 ≠ BLE_ERROR_NONE then g.2.2
  else
    let second := (g.2.1 + 1) % 60 % 256
    let w := c._second_char.set g.2.2 second false
    if w.1 ≠ BLE_ERROR_NONE then w.2
    else if second = 0 then c.increment_minute w.2
    else w.2

/-! ## Environment steps and observations -/

/-- Modelled from the spec: `registerService(serviceDescriptor)` of the external
GATT server (`GattServer::addService`), where each characteristic descriptor
carries its initial byte value.  On success the stack binds the value handles
it has chosen (`hh`, `mh`, `sh`) to the characteristics and stores each initial
value at its handle; on failure nothing is registered. -/
def GattServer.addService (server : BLE) (c : ClockService) (hh mh sh : Handle_t) :
    ble_error_t × BLE × ClockService :=
  let r := server.respond Call.addService
  if r.1 ≠ BLE_ERROR_NONE then (r.1, r.2, c)
  else
    (r.1,
      { r.2 with attrs :=
          setAttr (setAttr (setAttr r.2.attrs hh (c._hour_char._value % 256))
            mh (c._minute_char._value % 256)) sh (c._second_char._value % 256) },
      { c with
          _hour_char := { c._hour_char with valueHandle := hh }
          _minute_char := { c._minute_char with valueHandle := mh }
          _second_char := { c._second_char with valueHandle := sh } })

/-- Register the service and schedule the tick; returns the service and the
new environment.  `hh`, `mh` and `sh` are the value handles the stack binds if
the registration succeeds.  The pointers `_server` and `_event_queue` are set
before `addService` is called. -/
def ClockService.start (c : ClockService) (ble : BLE) (hh mh sh : Handle_t) :
    ClockService × BLE :=
  if c._event_queue then (c, ble)
  else
    let c1 := { c with _server := true, _event_queue := true }
    let r := GattServer.addService ble c1 hh mh sh
    if r.1 ≠ BLE_ERROR_NONE then (r.2.2, r.2.1)
    else
      let b1 := GattServer.onDataSent r.2.1
      let b2 := GattServer.onDataWritten b1
      let b3 := GattServer.onDataRead b2
      let b4 := GattServer.onUpdatesEnabled b3
      let b5 := GattServer.onUpdatesDisabled b4
      let b6 := GattServer.onConfirmationReceived b5
      (r.2.2, EventQueue.call_every b6 1000)

/-- A sequence of `start` calls, one for each entry of the list; the entry
holds the value handles the stack would bind at that call. -/
def ClockService.startAll : ClockService → BLE → List (Handle_t × Handle_t × Handle_t) →
    ClockService × BLE
  | c, ble, [] => (c, ble)
  | c, ble, hs :: rest =>
    ClockService.startAll (c.start ble hs.1 hs.2.1 hs.2.2).1
      (c.start ble hs.1 hs.2.1 hs.2.2).2 rest

/-- Modelled from the spec: the stack's handling of a client write request
("evaluated synchronously by the transport before any attribute mutation is
committed ... the actual commit is performed by the transport after
approval").  The authorization callback is consulted and the byte is stored at
the written handle only when the reply is success. -/
def GattServer.clientWrite (c : ClockService) (server : BLE)
    (e : GattWriteAuthCallbackParams) : BLE × GattWriteAuthCallbackParams :=
  let r := c.authorize_client_write server e
  if r.2.authorizationReply = AUTH_CALLBACK_REPLY_SUCCESS then
    ({ r.1 with attrs := setAttr r.1.attrs e.handle (e.data.getD 0 0 % 256) }, r.2)
  else r

/-- The stored time `(hour, minute, second)`: the bytes the server holds at the
three value handles. -/
def ClockService.storedTime (c : ClockService) (server : BLE) : Nat × Nat × Nat :=
  (server.attrs c._hour_char.valueHandle,
    server.attrs c._minute_char.valueHandle,
    server.attrs c._second_char.valueHandle)

/-- The three value handles are pairwise distinct. -/
def ClockService.distinctHandles (c : ClockService) : Prop :=
  c._hour_char.valueHandle ≠ c._minute_char.valueHandle ∧
  c._hour_char.valueHandle ≠ c._second_char.valueHandle ∧
  c._minute_char.valueHandle ≠ c._second_char.valueHandle

instance (c : ClockService) : Decidable c.distinctHandles := by
  unfold ClockService.distinctHandles; infer_instance

/-- The range predicate on a time triple. -/
def inRange (t : Nat × Nat × Nat) : Prop :=
  t.1 < 24 ∧ t.2.1 < 60 ∧ t.2.2 < 60

instance (t : Nat × Nat × Nat) : Decidable (inRange t) := by
  unfold inRange; infer_instance

/-- Every scripted answer is success: no call of the coming ones fails. -/
def BLE.allSucceed (ble : BLE) : Prop :=
  ∀ e ∈ ble.script, e = BLE_ERROR_NONE

instance (ble : BLE) : Decidable ble.allSucceed := by
  unfold BLE.allSucceed; infer_instance

/-- The state after `n` consecutive ticks. -/
def ClockService.ticks (c : ClockService) : Nat → BLE → BLE
  | 0, ble => ble
  | n + 1, ble => c.ticks n (c.increment_second ble)

/-- The calls issued since the state `before`. -/
def BLE.callsSince (after before : BLE) : List Call :=
  after.trace.drop before.trace.length

/-- The state after one answered read of `handle` followed by one answered
write of `value` to it, both successful. -/
def BLE.afterReadWrite (ble : BLE) (handle : Handle_t) (value : Nat) : BLE :=
  { ble with
    attrs := setAttr ble.attrs handle value,
    script := ble.script.tail.tail,
    trace := ble.trace ++ [Call.read handle, Call.write handle value false] }

/-- The state `ble` with the store replaced by `attrs`, the script by `script`
and the calls `calls` appended to the trace. -/
def BLE.after (ble : BLE) (attrs : Handle_t → Nat) (script : List ble_error_t)
    (calls : List Call) : BLE :=
  { ble with attrs := attrs, script := script, trace := ble.trace ++ calls }

/-- The answer the stack gives to the `i`-th fallible call from now (counting
from zero). -/
def BLE.answer (ble : BLE) (i : Nat) : ble_error_t :=
  ble.script.getD i BLE_ERROR_NONE

/-- Whether a recorded call is an invocation of the activation callback. -/
def Call.isCallback : Call → Bool
  | Call.post_init_cb _ => true
  | _ => false

/-- Whether a recorded call schedules a recurring timer. -/
def Call.isCallEvery : Call → Bool
  | Call.call_every _ => true
  | _ => false

/-- The time that follows `t` when each field is read as a byte, advanced
modulo 60 (24 for the hour) and a wrap to zero carries into the next field. -/
def nextTime (t : Nat × Nat × Nat) : Nat × Nat × Nat :=
  if (t.2.2 % 256 + 1) % 60 = 0 then
    if (t.2.1 % 256 + 1) % 60 = 0 then ((t.1 % 256 + 1) % 24, 0, 0)
    else (t.1, (t.2.1 % 256 + 1) % 60, 0)
  else (t.1, t.2.1, (t.2.2 % 256 + 1) % 60)

/-! ## Sample inputs -/

/-- A registered clock service: value handles 12, 15 and 18. -/
def sampleClock : ClockService :=
  { _hour_char := { uuid := "485f4145-52b9-4644-af1f-7a6b9322490f", _value := 0, valueHandle := 12 }
    _minute_char := { uuid := "0a924ca7-87cd-4699-a3bd-abdcd9cf126a", _value := 0, valueHandle := 15 }
    _second_char := { uuid := "8dd6a1b7-bc75-4741-8a26-264af75807de", _value := 0, valueHandle := 18 }
    _server := true
    _event_queue := true }

/-- An attribute store that holds the time `(h, m, s)` at the handles of
`sampleClock` and zero elsewhere. -/
def sampleAttrs (h m s : Nat) : Handle_t → Nat :=
  fun x => if x = 12 then h else if x = 15 then m else if x = 18 then s else 0

/-- A stack state holding the time `(h, m, s)` with the given script and an
empty trace. -/
def sampleBLE (h m s : Nat) (script : List ble_error_t) : BLE :=
  { initialized := true, attrs := sampleAttrs h m s, script := script, trace := [] }

/-- A stack that has not been initialized, with the given script, an empty
store and an empty trace. -/
def freshBLE (script : List ble_error_t) : BLE :=
  { initialized := false, attrs := fun _ => 0, script := script, trace := [] }

/-- A single-byte write request of `v` to `handle` at offset `offset`. -/
def sampleWrite (handle offset v : Nat) : GattWriteAuthCallbackParams :=
  { handle := handle, offset := offset, len := 1, data := [v],
    authorizationReply := AUTH_CALLBACK_REPLY_SUCCESS }

/-! ## Write authorization -/

/-- The reply to a single-byte write at offset 0, as a function of the byte. -/
theorem authorize_reply_of_byte (c : ClockService) (ble : BLE)
    (e : GattWriteAuthCallbackParams) (v : Nat)
    (hoff : e.offset = 0) (hlen : e.len = 1) (hdata : e.data = [v]) :
    (c.authorize_client_write ble e).2.authorizationReply =
      if 60 ≤ v ∨ (24 ≤ v ∧ e.handle = c._hour_char.valueHandle)
      then AUTH_CALLBACK_REPLY_ATTERR_WRITE_NOT_PERMITTED
      else AUTH_CALLBACK_REPLY_SUCCESS := by
  unfold ClockService.authorize_client_write
  rw [hdata]
  simp only [hoff, hlen, ne_eq, not_true_eq_false, if_false, List.getD_cons_zero, ge_iff_le]
  split <;> rfl

/-- C1: for a write request with offset 0 and length 1 carrying the byte `v`,
the reply of `authorize_client_write` is success exactly when `v < 24` on the
hour handle, and exactly when `v < 60` on the minute or second handle; in every
other such case the reply is write-not-permitted. -/
theorem authorize_client_write_range (c : ClockService) (ble : BLE)
    (e : GattWriteAuthCallbackParams) (v : Nat)
    (hoff : e.offset = 0) (hlen : e.len = 1) (hdata : e.data = [v])
    (hd : c.distinctHandles) :
    (e.handle = c._hour_char.valueHandle →
      (((c.authorize_client_write ble e).2.authorizationReply = AUTH_CALLBACK_REPLY_SUCCESS
          ↔ v < 24) ∧
        (¬ v < 24 → (c.authorize_client_write ble e).2.authorizationReply
          = AUTH_CALLBACK_REPLY_ATTERR_WRITE_NOT_PERMITTED))) ∧
    (e.handle = c._minute_char.valueHandle ∨ e.handle = c._second_char.valueHandle →
      (((c.authorize_client_write ble e).2.authorizationReply = AUTH_CALLBACK_REPLY_SUCCESS
          ↔ v < 60) ∧
        (¬ v < 60 → (c.authorize_client_write ble e).2.authorizationReply
          = AUTH_CALLBACK_REPLY_ATTERR_WRITE_NOT_PERMITTED))) := by
  obtain ⟨h1, h2, _⟩ := hd
  rw [authorize_reply_of_byte c ble e v hoff hlen hdata]
  refine ⟨fun hh => ?_, fun hms => ?_⟩
  · by_cases h24 : v < 24
    · have h60 : ¬ 60 ≤ v := by omega
      have h24n : ¬ 24 ≤ v := by omega
      simp [h24, h60, h24n]
    · have h24n : 24 ≤ v := by omega
      simp [h24, h24n, hh]
  · have hne : e.handle ≠ c._hour_char.valueHandle := by
      rcases hms with h | h
      · rw [h]; exact fun x => h1 x.symm
      · rw [h]; exact fun x => h2 x.symm
    by_cases h60 : v < 60
    · have h60n : ¬ 60 ≤ v := by omega
      simp [h60, h60n, hne]
    · have h60n : 60 ≤ v := by omega
      simp [h60, h60n]

/-- Witness of C1: the byte 24 written to the hour handle is refused. -/
theorem authorize_client_write_range_witness :
    (sampleWrite 12 0 24).offset = 0 ∧ (sampleWrite 12 0 24).len = 1 ∧
    (sampleWrite 12 0 24).data = [24] ∧ sampleClock.distinctHandles ∧
    (sampleClock.authorize_client_write (sampleBLE 7 30 15 []) (sampleWrite 12 0 24)).2.authorizationReply
      = AUTH_CALLBACK_REPLY_ATTERR_WRITE_NOT_PERMITTED :=
  ⟨rfl, rfl, rfl, by decide,
    ((authorize_client_write_range sampleClock (sampleBLE 7 30 15 []) (sampleWrite 12 0 24) 24
      rfl rfl rfl (by decide)).1 rfl).2 (by decide)⟩

/-- C5: a write request with a non-zero offset is answered with invalid-offset,
whatever its length, data and handle; the handler leaves the stack state as it
was, and the stack commits nothing, so the stored time is unchanged. -/
theorem authorize_client_write_invalid_offset (c : ClockService) (ble : BLE)
    (e : GattWriteAuthCallbackParams) (hoff : e.offset ≠ 0) :
    (c.authorize_client_write ble e).2.authorizationReply
        = AUTH_CALLBACK_REPLY_ATTERR_INVALID_OFFSET ∧
      (c.authorize_client_write ble e).1 = ble ∧
      (GattServer.clientWrite c ble e).2.authorizationReply
        = AUTH_CALLBACK_REPLY_ATTERR_INVALID_OFFSET ∧
      (GattServer.clientWrite c ble e).1 = ble ∧
      c.storedTime (GattServer.clientWrite c ble e).1 = c.storedTime ble := by
  have h : c.authorize_client_write ble e
      = (ble, { e with authorizationReply := AUTH_CALLBACK_REPLY_ATTERR_INVALID_OFFSET }) := by
    simp [ClockService.authorize_client_write, hoff]
  simp [GattServer.clientWrite, h]

/-- Witness of C5: a two-byte write at offset 3 to the minute handle. -/
theorem authorize_client_write_invalid_offset_witness :
    (3 : Nat) ≠ 0 ∧
    (sampleClock.authorize_client_write (sampleBLE 7 30 15 [])
        { handle := 15, offset := 3, len := 2, data := [8, 9],
          authorizationReply := AUTH_CALLBACK_REPLY_SUCCESS }).2.authorizationReply
      = AUTH_CALLBACK_REPLY_ATTERR_INVALID_OFFSET ∧
    sampleClock.storedTime (GattServer.clientWrite sampleClock (sampleBLE 7 30 15 [])
        { handle := 15, offset := 3, len := 2, data := [8, 9],
          authorizationReply := AUTH_CALLBACK_REPLY_SUCCESS }).1 = (7, 30, 15) :=
  ⟨by decide,
    (authorize_client_write_invalid_offset sampleClock (sampleBLE 7 30 15 [])
      { handle := 15, offset := 3, len := 2, data := [8, 9],
        authorizationReply := AUTH_CALLBACK_REPLY_SUCCESS } (by decide)).1,
    (authorize_client_write_invalid_offset sampleClock (sampleBLE 7 30 15 [])
      { handle := 15, offset := 3, len := 2, data := [8, 9],
        authorizationReply := AUTH_CALLBACK_REPLY_SUCCESS } (by decide)).2.2.2.2.trans rfl⟩

/-- C6 as stated fails: a request of length 2 at offset 3 is answered with
invalid-offset, not invalid-length, because the offset is checked first. -/
theorem authorize_client_write_length_counterexample :
    (2 : Nat) ≠ 1 ∧
    (sampleClock.authorize_client_write (sampleBLE 7 30 15 [])
        { handle := 15, offset := 3, len := 2, data := [8, 9],
          authorizationReply := AUTH_CALLBACK_REPLY_SUCCESS }).2.authorizationReply
      = AUTH_CALLBACK_REPLY_ATTERR_INVALID_OFFSET ∧
    (sampleClock.authorize_client_write (sampleBLE 7 30 15 [])
        { handle := 15, offset := 3, len := 2, data := [8, 9],
          authorizationReply := AUTH_CALLBACK_REPLY_SUCCESS }).2.authorizationReply
      ≠ AUTH_CALLBACK_REPLY_ATTERR_INVALID_ATT_VAL_LENGTH := by
  decide

/-- C6, amended: a write request with offset 0 whose length is not exactly one
byte is answered with invalid-length; the handler leaves the stack state as it
was, and the stack commits nothing, so the stored time is unchanged. -/
theorem authorize_client_write_invalid_length (c : ClockService) (ble : BLE)
    (e : GattWriteAuthCallbackParams) (hoff : e.offset = 0) (hlen : e.len ≠ 1) :
    (c.authorize_client_write ble e).2.authorizationReply
        = AUTH_CALLBACK_REPLY_ATTERR_INVALID_ATT_VAL_LENGTH ∧
      (c.authorize_client_write ble e).1 = ble ∧
      (GattServer.clientWrite c ble e).2.authorizationReply
        = AUTH_CALLBACK_REPLY_ATTERR_INVALID_ATT_VAL_LENGTH ∧
      (GattServer.clientWrite c ble e).1 = ble ∧
      c.storedTime (GattServer.clientWrite c ble e).1 = c.storedTime ble := by
  have h : c.authorize_client_write ble e
      = (ble, { e with authorizationReply := AUTH_CALLBACK_REPLY_ATTERR_INVALID_ATT_VAL_LENGTH }) := by
    simp [ClockService.authorize_client_write, hoff, hlen]
  simp [GattServer.clientWrite, h]

/-- Witness of amended C6: an empty write and a two-byte write at offset 0. -/
theorem authorize_client_write_invalid_length_witness :
    (0 : Nat) = 0 ∧ (2 : Nat) ≠ 1 ∧
    (sampleClock.authorize_client_write (sampleBLE 7 30 15 [])
        { handle := 12, offset := 0, len := 2, data := [8, 9],
          authorizationReply := AUTH_CALLBACK_REPLY_SUCCESS }).2.authorizationReply
      = AUTH_CALLBACK_REPLY_ATTERR_INVALID_ATT_VAL_LENGTH ∧
    sampleClock.storedTime (GattServer.clientWrite sampleClock (sampleBLE 7 30 15 [])
        { handle := 12, offset := 0, len := 0, data := [],
          authorizationReply := AUTH_CALLBACK_REPLY_SUCCESS }).1 = (7, 30, 15) :=
  ⟨rfl, by decide,
    (authorize_client_write_invalid_length sampleClock (sampleBLE 7 30 15 [])
      { handle := 12, offset := 0, len := 2, data := [8, 9],
        authorizationReply := AUTH_CALLBACK_REPLY_SUCCESS } rfl (by decide)).1,
    (authorize_client_write_invalid_length sampleClock (sampleBLE 7 30 15 [])
      { handle := 12, offset := 0, len := 0, data := [],
        authorizationReply := AUTH_CALLBACK_REPLY_SUCCESS } rfl (by decide)).2.2.2.2.trans rfl⟩

/-! ## Ticks with a transport that does not fail -/

theorem headD_of_all_none (l : List ble_error_t) (h : ∀ e ∈ l, e = BLE_ERROR_NONE) :
    l.headD BLE_ERROR_NONE = BLE_ERROR_NONE := by
  cases l with
  | nil => rfl
  | cons a t => exact h a (List.mem_cons_self a t)

theorem tail_all_none (l : List ble_error_t) (h : ∀ e ∈ l, e = BLE_ERROR_NONE) :
    ∀ e ∈ l.tail, e = BLE_ERROR_NONE :=
  fun e he => h e (List.mem_of_mem_tail he)

/-- A successful read returns the stored byte and only consumes one answer. -/
theorem read_of_allSucceed (server : BLE) (handle : Handle_t) (dst : Nat)
    (h : server.allSucceed) :
    GattServer.read server handle dst =
      (BLE_ERROR_NONE, server.attrs handle % 256,
        { server with script := server.script.tail,
                      trace := server.trace ++ [Call.read handle] }) := by
  have h0 := headD_of_all_none server.script h
  unfold GattServer.read BLE.respond
  simp only [h0, ne_eq, not_true_eq_false, if_false]

/-- A successful write stores the byte and only consumes one answer. -/
theorem write_of_allSucceed (server : BLE) (handle : Handle_t) (value : Nat) (lo : Bool)
    (h : server.allSucceed) :
    GattServer.write server handle value lo =
      (BLE_ERROR_NONE,
        { server with attrs := setAttr server.attrs handle (value % 256),
                      script := server.script.tail,
                      trace := server.trace ++ [Call.write handle value lo] }) := by
  have h0 := headD_of_all_none server.script h
  unfold GattServer.write BLE.respond
  simp only [h0, ne_eq, not_true_eq_false, if_false]

theorem afterReadWrite_allSucceed (ble : BLE) (handle : Handle_t) (value : Nat)
    (h : ble.allSucceed) : (ble.afterReadWrite handle value).allSucceed :=
  tail_all_none _ (tail_all_none _ h)

/-- With no failing call, `increment_hour` stores the next hour. -/
theorem increment_hour_of_allSucceed (c : ClockService) (ble : BLE) (h : ble.allSucceed) :
    c.increment_hour ble =
      ble.afterReadWrite c._hour_char.valueHandle
        ((ble.attrs c._hour_char.valueHandle % 256 + 1) % 24) := by
  have h1 : ∀ e ∈ ble.script.tail, e = BLE_ERROR_NONE := tail_all_none _ h
  have hm : (ble.attrs c._hour_char.valueHandle % 256 + 1) % 24 % 256
      = (ble.attrs c._hour_char.valueHandle % 256 + 1) % 24 := by omega
  unfold ClockService.increment_hour ReadWriteNotifyIndicateCharacteristic.get
    ReadWriteNotifyIndicateCharacteristic.set
  dsimp only
  rw [read_of_allSucceed _ _ _ h]
  simp only [ne_eq, not_true_eq_false, if_false, ite_self]
  rw [write_of_allSucceed]
  · simp [hm, BLE.afterReadWrite]
  · exact h1

/-- With no failing call, `increment_minute` stores the next minute and
carries into the hour when it wrapped. -/
theorem increment_minute_of_allSucceed (c : ClockService) (ble : BLE) (h : ble.allSucceed) :
    c.increment_minute ble =
      if (ble.attrs c._minute_char.valueHandle % 256 + 1) % 60 = 0 then
        c.increment_hour (ble.afterReadWrite c._minute_char.valueHandle
          ((ble.attrs c._minute_char.valueHandle % 256 + 1) % 60))
      else
        ble.afterReadWrite c._minute_char.valueHandle
          ((ble.attrs c._minute_char.valueHandle % 256 + 1) % 60) := by
  have h1 : ∀ e ∈ ble.script.tail, e = BLE_ERROR_NONE := tail_all_none _ h
  have hm : (ble.attrs c._minute_char.valueHandle % 256 + 1) % 60 % 256
      = (ble.attrs c._minute_char.valueHandle % 256 + 1) % 60 := by omega
  unfold ClockService.increment_minute ReadWriteNotifyIndicateCharacteristic.get
    ReadWriteNotifyIndicateCharacteristic.set
  dsimp only
  rw [read_of_allSucceed _ _ _ h]
  simp only [ne_eq, not_true_eq_false, if_false]
  rw [write_of_allSucceed]
  · simp [hm, BLE.afterReadWrite]
  · exact h1

/-- With no failing call, `increment_second` stores the next second and
carries into the minute when it wrapped. -/
theorem increment_second_of_allSucceed (c : ClockService) (ble : BLE) (h : ble.allSucceed) :
    c.increment_second ble =
      if (ble.attrs c._second_char.valueHandle % 256 + 1) % 60 = 0 then
        c.increment_minute (ble.afterReadWrite c._second_char.valueHandle
          ((ble.attrs c._second_char.valueHandle % 256 + 1) % 60))
      else
        ble.afterReadWrite c._second_char.valueHandle
          ((ble.attrs c._second_char.valueHandle % 256 + 1) % 60) := by
  have h1 : ∀ e ∈ ble.script.tail, e = BLE_ERROR_NONE := tail_all_none _ h
  have hm : (ble.attrs c._second_char.valueHandle % 256 + 1) % 60 % 256
      = (ble.attrs c._second_char.valueHandle % 256 + 1) % 60 := by omega
  unfold ClockService.increment_second ReadWriteNotifyIndicateCharacteristic.get
    ReadWriteNotifyIndicateCharacteristic.set
  dsimp only
  rw [read_of_allSucceed _ _ _ h]
  simp only [ne_eq, not_true_eq_false, if_false]
  rw [write_of_allSucceed]
  · simp [hm, BLE.afterReadWrite]
  · exact h1

/-- With no failing call and distinct handles, one tick replaces the stored
time by `nextTime` of it and leaves a transport that still does not fail. -/
theorem increment_second_storedTime (c : ClockService) (ble : BLE)
    (hd : c.distinctHandles) (h : ble.allSucceed) :
    c.storedTime (c.increment_second ble) = nextTime (c.storedTime ble) ∧
      (c.increment_second ble).allSucceed := by
  obtain ⟨hhm, hhs, hms⟩ := hd
  have a1 := afterReadWrite_allSucceed ble c._second_char.valueHandle
    ((ble.attrs c._second_char.valueHandle % 256 + 1) % 60) h
  rw [increment_second_of_allSucceed c ble h]
  by_cases hs : (ble.attrs c._second_char.valueHandle % 256 + 1) % 60 = 0
  · rw [if_pos hs, increment_minute_of_allSucceed c _ a1]
    have a2 := afterReadWrite_allSucceed _ c._minute_char.valueHandle
      (((ble.afterReadWrite c._second_char.valueHandle
        ((ble.attrs c._second_char.valueHandle % 256 + 1) % 60)).attrs
          c._minute_char.valueHandle % 256 + 1) % 60) a1
    have e1 : (ble.afterReadWrite c._second_char.valueHandle
        ((ble.attrs c._second_char.valueHandle % 256 + 1) % 60)).attrs c._minute_char.valueHandle
        = ble.attrs c._minute_char.valueHandle := by
      simp [BLE.afterReadWrite, setAttr, hms]
    by_cases hm : (ble.attrs c._minute_char.valueHandle % 256 + 1) % 60 = 0
    · rw [e1] at a2 ⊢
      rw [if_pos hm, increment_hour_of_allSucceed c _ a2]
      refine ⟨?_, afterReadWrite_allSucceed _ _ _ a2⟩
      simp [ClockService.storedTime, nextTime, BLE.afterReadWrite, setAttr, hs, hm, hhm, hhs, hms,
        Ne.symm hhm, Ne.symm hhs, Ne.symm hms]
    · rw [e1] at a2 ⊢
      rw [if_neg hm]
      refine ⟨?_, a2⟩
      simp [ClockService.storedTime, nextTime, BLE.afterReadWrite, setAttr, hs, hm, hhm, hhs, hms,
        Ne.symm hhm, Ne.symm hhs, Ne.symm hms]
  · rw [if_neg hs]
    refine ⟨?_, a1⟩
    simp [ClockService.storedTime, nextTime, BLE.afterReadWrite, setAttr, hs, hhm, hhs, hms,
      Ne.symm hhm, Ne.symm hhs, Ne.symm hms]

/-- C2: with every transport read and write succeeding, one tick maps the
stored time `(23, 59, 59)` to `(0, 0, 0)`, `(h, m, 59)` with `m < 59` to
`(h, m + 1, 0)` and `(h, m, s)` with `s < 59` to `(h, m, s + 1)`, for every
`h < 24` and `m < 60`. -/
theorem increment_second_cascade (c : ClockService) (ble : BLE) (h m s : Nat)
    (hd : c.distinctHandles) (hok : ble.allSucceed)
    (ht : c.storedTime ble = (h, m, s)) (hh : h < 24) (hm : m < 60) :
    (h = 23 ∧ m = 59 ∧ s = 59 → c.storedTime (c.increment_second ble) = (0, 0, 0)) ∧
    (m < 59 ∧ s = 59 → c.storedTime (c.increment_second ble) = (h, m + 1, 0)) ∧
    (s < 59 → c.storedTime (c.increment_second ble) = (h, m, s + 1)) := by
  rw [(increment_second_storedTime c ble hd hok).1, ht]
  refine ⟨?_, ?_, ?_⟩
  · rintro ⟨rfl, rfl, rfl⟩
    rfl
  · rintro ⟨hm59, rfl⟩
    have e1 : (m % 256 + 1) % 60 = m + 1 := by omega
    have e2 : m + 1 ≠ 0 := by omega
    simp [nextTime, e1, e2]
  · intro hs
    have e1 : (s % 256 + 1) % 60 = s + 1 := by omega
    have e2 : s + 1 ≠ 0 := by omega
    simp [nextTime, e1, e2]

/-- Witness of C2: the three cases at `(23, 59, 59)`, `(7, 30, 59)` and
`(7, 30, 15)`. -/
theorem increment_second_cascade_witness :
    sampleClock.distinctHandles ∧ (sampleBLE 23 59 59 []).allSucceed ∧
    sampleClock.storedTime (sampleBLE 23 59 59 []) = (23, 59, 59) ∧
    sampleClock.storedTime (sampleClock.increment_second (sampleBLE 23 59 59 [])) = (0, 0, 0) ∧
    sampleClock.storedTime (sampleClock.increment_second (sampleBLE 7 30 59 [0, 0, 0, 0]))
      = (7, 31, 0) ∧
    sampleClock.storedTime (sampleClock.increment_second (sampleBLE 7 30 15 [0, 0]))
      = (7, 30, 16) :=
  ⟨by decide, by decide, rfl,
    (increment_second_cascade sampleClock (sampleBLE 23 59 59 []) 23 59 59
      (by decide) (by decide) rfl (by decide) (by decide)).1 ⟨rfl, rfl, rfl⟩,
    (increment_second_cascade sampleClock (sampleBLE 7 30 59 [0, 0, 0, 0]) 7 30 59
      (by decide) (by decide) rfl (by decide) (by decide)).2.1 ⟨by decide, rfl⟩,
    (increment_second_cascade sampleClock (sampleBLE 7 30 15 [0, 0]) 7 30 15
      (by decide) (by decide) rfl (by decide) (by decide)).2.2 (by decide)⟩

/-- The time of day of the `T`-th second. -/
theorem nextTime_of_seconds (T : Nat) :
    nextTime (T / 3600 % 24, T / 60 % 60, T % 60)
      = ((T + 1) / 3600 % 24, (T + 1) / 60 % 60, (T + 1) % 60) := by
  have a1 : T / 3600 = T / 60 / 60 := by rw [Nat.div_div_eq_div_mul]
  have a2 : (T + 1) / 3600 = (T + 1) / 60 / 60 := by rw [Nat.div_div_eq_div_mul]
  have b1 : T % 60 % 256 = T % 60 := by omega
  have b2 : T / 60 % 60 % 256 = T / 60 % 60 := by omega
  have b3 : T / 60 / 60 % 24 % 256 = T / 60 / 60 % 24 := by omega
  rw [a1, a2]
  unfold nextTime
  dsimp only
  rw [b1, b2, b3]
  split_ifs with h1 h2
  · refine Prod.ext ?_ (Prod.ext ?_ ?_) <;> dsimp only <;> omega
  · refine Prod.ext ?_ (Prod.ext ?_ ?_) <;> dsimp only <;> omega
  · refine Prod.ext ?_ (Prod.ext ?_ ?_) <;> dsimp only <;> omega

/-- With no failing call, `n` ticks advance the second count `T` to `T + n`. -/
theorem ticks_of_seconds (c : ClockService) (hd : c.distinctHandles) (n : Nat) :
    ∀ (ble : BLE) (T : Nat), ble.allSucceed →
      c.storedTime ble = (T / 3600 % 24, T / 60 % 60, T % 60) →
      c.storedTime (c.ticks n ble)
        = ((T + n) / 3600 % 24, (T + n) / 60 % 60, (T + n) % 60) := by
  induction n with
  | zero => intro ble T _ ht; simpa [ClockService.ticks] using ht
  | succ k ih =>
    intro ble T hok ht
    have step := increment_second_storedTime c ble hd hok
    have ht1 : c.storedTime (c.increment_second ble)
        = ((T + 1) / 3600 % 24, (T + 1) / 60 % 60, (T + 1) % 60) := by
      rw [step.1, ht, nextTime_of_seconds]
    have := ih (c.increment_second ble) (T + 1) step.2 ht1
    rw [ClockService.ticks, this]
    have e : T + 1 + k = T + (k + 1) := by omega
    rw [e]

/-- C3: with every transport read and write succeeding, the stored time after
`n` consecutive ticks from `(0, 0, 0)` is `(n / 3600 % 24, n / 60 % 60, n % 60)`;
120 ticks give `(0, 2, 0)` and 86400 ticks give `(0, 0, 0)` again. -/
theorem ticks_from_midnight (c : ClockService) (ble : BLE)
    (hd : c.distinctHandles) (hok : ble.allSucceed)
    (ht : c.storedTime ble = (0, 0, 0)) :
    (∀ n : Nat, c.storedTime (c.ticks n ble) = (n / 3600 % 24, n / 60 % 60, n % 60)) ∧
    c.storedTime (c.ticks 120 ble) = (0, 2, 0) ∧
    c.storedTime (c.ticks 86400 ble) = (0, 0, 0) := by
  have key : ∀ n : Nat,
      c.storedTime (c.ticks n ble) = (n / 3600 % 24, n / 60 % 60, n % 60) := by
    intro n
    have := ticks_of_seconds c hd n ble 0 hok (by simpa using ht)
    simpa using this
  exact ⟨key, key 120, key 86400⟩

/-- Witness of C3: 120 ticks of the sample service from `(0, 0, 0)`. -/
theorem ticks_from_midnight_witness :
    sampleClock.distinctHandles ∧ (sampleBLE 0 0 0 []).allSucceed ∧
    sampleClock.storedTime (sampleBLE 0 0 0 []) = (0, 0, 0) ∧
    sampleClock.storedTime (sampleClock.ticks 120 (sampleBLE 0 0 0 [])) = (0, 2, 0) ∧
    sampleClock.storedTime (sampleClock.ticks 86400 (sampleBLE 0 0 0 [])) = (0, 0, 0) :=
  ⟨by decide, by decide, rfl,
    (ticks_from_midnight sampleClock (sampleBLE 0 0 0 []) (by decide) (by decide) rfl).2.1,
    (ticks_from_midnight sampleClock (sampleBLE 0 0 0 []) (by decide) (by decide) rfl).2.2⟩

/-! ## The range invariant -/

/-- A read never changes the attribute store. -/
theorem read_attrs (server : BLE) (handle : Handle_t) (dst : Nat) :
    (GattServer.read server handle dst).2.2.attrs = server.attrs := by
  unfold GattServer.read BLE.respond
  dsimp only
  split <;> rfl

/-- A write either fails and leaves the store as it was, or succeeds and
stores the byte at the handle. -/
theorem write_attrs (server : BLE) (handle : Handle_t) (value : Nat) (lo : Bool) :
    ((GattServer.write server handle value lo).1 ≠ BLE_ERROR_NONE ∧
        (GattServer.write server handle value lo).2.attrs = server.attrs) ∨
      ((GattServer.write server handle value lo).1 = BLE_ERROR_NONE ∧
        (GattServer.write server handle value lo).2.attrs
          = setAttr server.attrs handle (value % 256)) := by
  unfold GattServer.write BLE.respond
  dsimp only
  by_cases h : server.script.headD BLE_ERROR_NONE = BLE_ERROR_NONE
  · right
    simp only [h, ne_eq, not_true_eq_false, if_false, and_self]
  · left
    simp only [h, ne_eq, not_false_eq_true, if_true, and_self]

/-- The range predicate spelled out on the attribute store. -/
theorem inRange_storedTime (c : ClockService) (server : BLE) :
    inRange (c.storedTime server) ↔
      server.attrs c._hour_char.valueHandle < 24 ∧
      server.attrs c._minute_char.valueHandle < 60 ∧
      server.attrs c._second_char.valueHandle < 60 :=
  Iff.rfl

/-- The hour step keeps the stored time in range, whatever the transport answers. -/
theorem increment_hour_inRange (c : ClockService) (ble : BLE) (hd : c.distinctHandles)
    (hr : inRange (c.storedTime ble)) : inRange (c.storedTime (c.increment_hour ble)) := by
  obtain ⟨hhm, hhs, hms⟩ := hd
  rw [inRange_storedTime] at hr ⊢
  unfold ClockService.increment_hour ReadWriteNotifyIndicateCharacteristic.get
    ReadWriteNotifyIndicateCharacteristic.set
  dsimp only
  have ra := read_attrs ble c._hour_char.valueHandle 0
  split_ifs with h1 h2
  · rw [ra]; exact hr
  · rcases write_attrs (GattServer.read ble c._hour_char.valueHandle 0).2.2
      c._hour_char.valueHandle
      (((GattServer.read ble c._hour_char.valueHandle 0).2.1 + 1) % 24 % 256) false
      with ⟨_, e⟩ | ⟨_, e⟩
    · rw [e, ra]; exact hr
    · rw [e, ra]
      simp only [setAttr, if_true, Ne.symm hhm, Ne.symm hhs, if_false]
      exact ⟨by omega, hr.2.1, hr.2.2⟩
  · rcases write_attrs (GattServer.read ble c._hour_char.valueHandle 0).2.2
      c._hour_char.valueHandle
      (((GattServer.read ble c._hour_char.valueHandle 0).2.1 + 1) % 24 % 256) false
      with ⟨_, e⟩ | ⟨_, e⟩
    · rw [e, ra]; exact hr
    · rw [e, ra]
      simp only [setAttr, if_true, Ne.symm hhm, Ne.symm hhs, if_false]
      exact ⟨by omega, hr.2.1, hr.2.2⟩

/-- A read keeps the stored time. -/
theorem read_storedTime (c : ClockService) (server : BLE) (handle : Handle_t) (dst : Nat) :
    c.storedTime (GattServer.read server handle dst).2.2 = c.storedTime server := by
  unfold ClockService.storedTime
  rw [read_attrs]

/-- A write of a byte below 60 to a handle other than the hour handle keeps the
stored time in range, whether it succeeds or fails. -/
theorem write_inRange (c : ClockService) (server : BLE) (handle : Handle_t) (value : Nat)
    (lo : Bool) (hne : c._hour_char.valueHandle ≠ handle) (hv : value % 256 < 60)
    (hr : inRange (c.storedTime server)) :
    inRange (c.storedTime (GattServer.write server handle value lo).2) := by
  rw [inRange_storedTime] at hr ⊢
  rcases write_attrs server handle value lo with ⟨_, e⟩ | ⟨_, e⟩
  · rw [e]; exact hr
  · rw [e]
    simp only [setAttr, hne, if_false]
    refine ⟨hr.1, ?_, ?_⟩
    · split
      · exact hv
      · exact hr.2.1
    · split
      · exact hv
      · exact hr.2.2

/-- The minute step keeps the stored time in range, whatever the transport answers. -/
theorem increment_minute_inRange (c : ClockService) (ble : BLE) (hd : c.distinctHandles)
    (hr : inRange (c.storedTime ble)) : inRange (c.storedTime (c.increment_minute ble)) := by
  have hw := write_inRange c (GattServer.read ble c._minute_char.valueHandle 0).2.2
    c._minute_char.valueHandle
    (((GattServer.read ble c._minute_char.valueHandle 0).2.1 + 1) % 60 % 256) false
    hd.1 (by omega) (by rw [read_storedTime]; exact hr)
  unfold ClockService.increment_minute ReadWriteNotifyIndicateCharacteristic.get
    ReadWriteNotifyIndicateCharacteristic.set
  dsimp only
  split_ifs with h1 h2 h3
  · rw [read_storedTime]; exact hr
  · exact hw
  · exact increment_hour_inRange c _ hd hw
  · exact hw

/-- The second step keeps the stored time in range, whatever the transport answers. -/
theorem increment_second_inRange (c : ClockService) (ble : BLE) (hd : c.distinctHandles)
    (hr : inRange (c.storedTime ble)) : inRange (c.storedTime (c.increment_second ble)) := by
  have hw := write_inRange c (GattServer.read ble c._second_char.valueHandle 0).2.2
    c._second_char.valueHandle
    (((GattServer.read ble c._second_char.valueHandle 0).2.1 + 1) % 60 % 256) false
    hd.2.1 (by omega) (by rw [read_storedTime]; exact hr)
  unfold ClockService.increment_second ReadWriteNotifyIndicateCharacteristic.get
    ReadWriteNotifyIndicateCharacteristic.set
  dsimp only
  split_ifs with h1 h2 h3
  · rw [read_storedTime]; exact hr
  · exact hw
  · exact increment_minute_inRange c _ hd hw
  · exact hw

/-- A client write that the authorization handler accepts keeps the stored time
in range once the stack has committed it. -/
theorem clientWrite_inRange (c : ClockService) (ble : BLE) (e : GattWriteAuthCallbackParams)
    (hacc : (c.authorize_client_write ble e).2.authorizationReply = AUTH_CALLBACK_REPLY_SUCCESS)
    (hr : inRange (c.storedTime ble)) :
    inRange (c.storedTime (GattServer.clientWrite c ble e).1) := by
  have hst : (c.authorize_client_write ble e).1 = ble := by
    unfold ClockService.authorize_client_write
    split_ifs <;> rfl
  have hg : ¬ (e.data.getD 0 0 ≥ 60 ∨
      (e.data.getD 0 0 ≥ 24 ∧ e.handle = c._hour_char.valueHandle)) := by
    intro hbad
    unfold ClockService.authorize_client_write at hacc
    by_cases h1 : e.offset ≠ 0
    · rw [if_pos h1] at hacc
      exact GattAuthCallbackReply_t.noConfusion hacc
    · rw [if_neg h1] at hacc
      by_cases h2 : e.len ≠ 1
      · rw [if_pos h2] at hacc
        exact GattAuthCallbackReply_t.noConfusion hacc
      · rw [if_neg h2, if_pos hbad] at hacc
        exact GattAuthCallbackReply_t.noConfusion hacc
  have h60 : e.data.getD 0 0 < 60 := by
    by_contra hc
    exact hg (Or.inl (by omega))
  have h24 : e.handle = c._hour_char.valueHandle → e.data.getD 0 0 < 24 := by
    intro hh
    by_contra hc
    exact hg (Or.inr ⟨by omega, hh⟩)
  rw [inRange_storedTime] at hr ⊢
  unfold GattServer.clientWrite
  dsimp only
  rw [if_pos hacc, hst]
  simp only [setAttr]
  refine ⟨?_, ?_, ?_⟩
  · split
    · rename_i hx
      have := h24 hx.symm
      omega
    · exact hr.1
  · split
    · omega
    · exact hr.2.1
  · split
    · omega
    · exact hr.2.2

/-- Registration of the freshly constructed service stores the time `(0, 0, 0)`. -/
theorem addService_storedTime (server : BLE) (hh mh sh : Handle_t)
    (h1 : hh ≠ mh) (h2 : hh ≠ sh) (h3 : mh ≠ sh)
    (hok : (GattServer.addService server ClockService.ctor hh mh sh).1 = BLE_ERROR_NONE) :
    (GattServer.addService server ClockService.ctor hh mh sh).2.2.storedTime
        (GattServer.addService server ClockService.ctor hh mh sh).2.1 = (0, 0, 0) ∧
      (GattServer.addService server ClockService.ctor hh mh sh).2.2.distinctHandles := by
  unfold GattServer.addService at hok ⊢
  dsimp only at hok ⊢
  split_ifs at hok ⊢ with h
  · exact absurd hok h
  · simp [ClockService.storedTime, ClockService.distinctHandles, ClockService.ctor, setAttr,
      h1, h2, h3, Ne.symm h1, Ne.symm h2, Ne.symm h3]

/-- C4: the range predicate `hour < 24`, `minute < 60`, `second < 60` on the
stored values holds initially (the constructor gives all three characteristics
the value 0, and a successful registration stores `(0, 0, 0)`), is preserved by
every tick whatever the transport answers to its reads and writes, and is
preserved by every client write that `authorize_client_write` accepts. -/
theorem range_invariant (c : ClockService) (ble : BLE)
    (hd : c.distinctHandles) (hr : inRange (c.storedTime ble)) :
    inRange (c.storedTime (c.increment_second ble)) ∧
    (∀ e : GattWriteAuthCallbackParams,
      (c.authorize_client_write ble e).2.authorizationReply = AUTH_CALLBACK_REPLY_SUCCESS →
      inRange (c.storedTime (GattServer.clientWrite c ble e).1)) ∧
    (ClockService.ctor._hour_char._value = 0 ∧ ClockService.ctor._minute_char._value = 0 ∧
      ClockService.ctor._second_char._value = 0) ∧
    (∀ (server : BLE) (hh mh sh : Handle_t), hh ≠ mh → hh ≠ sh → mh ≠ sh →
      (GattServer.addService server ClockService.ctor hh mh sh).1 = BLE_ERROR_NONE →
      (GattServer.addService server ClockService.ctor hh mh sh).2.2.storedTime
          (GattServer.addService server ClockService.ctor hh mh sh).2.1 = (0, 0, 0) ∧
        inRange ((GattServer.addService server ClockService.ctor hh mh sh).2.2.storedTime
          (GattServer.addService server ClockService.ctor hh mh sh).2.1)) := by
  refine ⟨increment_second_inRange c ble hd hr,
    fun e hacc => clientWrite_inRange c ble e hacc hr, ⟨rfl, rfl, rfl⟩, ?_⟩
  intro server hh mh sh h1 h2 h3 hok
  have h := (addService_storedTime server hh mh sh h1 h2 h3 hok).1
  refine ⟨h, ?_⟩
  rw [h]
  decide

/-- Witness of C4: a tick at `(23, 59, 59)` whose minute write fails with code 5
leaves `(23, 59, 0)`, and an accepted write of 5 to the hour handle leaves
`(5, 59, 59)`; both are in range. -/
theorem range_invariant_witness :
    sampleClock.distinctHandles ∧ inRange (sampleClock.storedTime (sampleBLE 23 59 59 [0, 0, 0, 5])) ∧
    sampleClock.storedTime (sampleClock.increment_second (sampleBLE 23 59 59 [0, 0, 0, 5]))
      = (23, 59, 0) ∧
    inRange (sampleClock.storedTime (sampleClock.increment_second (sampleBLE 23 59 59 [0, 0, 0, 5]))) ∧
    sampleClock.storedTime
      (GattServer.clientWrite sampleClock (sampleBLE 23 59 59 [0, 0, 0, 5]) (sampleWrite 12 0 5)).1
      = (5, 59, 59) ∧
    inRange (sampleClock.storedTime
      (GattServer.clientWrite sampleClock (sampleBLE 23 59 59 [0, 0, 0, 5]) (sampleWrite 12 0 5)).1) :=
  ⟨by decide, by decide, rfl,
    (range_invariant sampleClock (sampleBLE 23 59 59 [0, 0, 0, 5]) (by decide) (by decide)).1,
    rfl,
    (range_invariant sampleClock (sampleBLE 23 59 59 [0, 0, 0, 5]) (by decide) (by decide)).2.1
      (sampleWrite 12 0 5) rfl⟩

/-! ## Ticks with a failing transport -/

/-- A read answered with an error returns it and leaves the destination and
the store as they were. -/
theorem read_of_fail (server : BLE) (handle : Handle_t) (dst : Nat) (err : ble_error_t)
    (rest : List ble_error_t) (hs : server.script = err :: rest) (herr : err ≠ BLE_ERROR_NONE) :
    GattServer.read server handle dst =
      (err, dst, { server with script := rest, trace := server.trace ++ [Call.read handle] }) := by
  unfold GattServer.read BLE.respond
  simp only [hs, List.headD_cons, List.tail_cons, ne_eq, herr, not_false_eq_true, if_true]

/-- A read answered with success returns the stored byte. -/
theorem read_of_ok (server : BLE) (handle : Handle_t) (dst : Nat)
    (rest : List ble_error_t) (hs : server.script = BLE_ERROR_NONE :: rest) :
    GattServer.read server handle dst =
      (BLE_ERROR_NONE, server.attrs handle % 256,
        { server with script := rest, trace := server.trace ++ [Call.read handle] }) := by
  unfold GattServer.read BLE.respond
  simp only [hs, List.headD_cons, List.tail_cons, ne_eq, not_true_eq_false, if_false]

/-- A write answered with an error returns it and leaves the store as it was. -/
theorem write_of_fail (server : BLE) (handle : Handle_t) (value : Nat) (lo : Bool)
    (err : ble_error_t) (rest : List ble_error_t) (hs : server.script = err :: rest)
    (herr : err ≠ BLE_ERROR_NONE) :
    GattServer.write server handle value lo =
      (err, { server with script := rest,
                          trace := server.trace ++ [Call.write handle value lo] }) := by
  unfold GattServer.write BLE.respond
  simp only [hs, List.headD_cons, List.tail_cons, ne_eq, herr, not_false_eq_true, if_true]

/-- A write answered with success stores the byte. -/
theorem write_of_ok (server : BLE) (handle : Handle_t) (value : Nat) (lo : Bool)
    (rest : List ble_error_t) (hs : server.script = BLE_ERROR_NONE :: rest) :
    GattServer.write server handle value lo =
      (BLE_ERROR_NONE,
        { server with attrs := setAttr server.attrs handle (value % 256),
                      script := rest,
                      trace := server.trace ++ [Call.write handle value lo] }) := by
  unfold GattServer.write BLE.respond
  simp only [hs, List.headD_cons, List.tail_cons, ne_eq, not_true_eq_false, if_false]

/-- The hour step when its read fails. -/
theorem increment_hour_read_fail (c : ClockService) (ble : BLE) (err : ble_error_t)
    (rest : List ble_error_t) (hs : ble.script = err :: rest) (herr : err ≠ BLE_ERROR_NONE) :
    c.increment_hour ble = ble.after ble.attrs rest [Call.read c._hour_char.valueHandle] := by
  unfold ClockService.increment_hour ReadWriteNotifyIndicateCharacteristic.get
  dsimp only
  rw [read_of_fail ble _ _ err rest hs herr]
  simp only [ne_eq, herr, not_false_eq_true, if_true, BLE.after]

/-- The hour step when its read succeeds and its write fails. -/
theorem increment_hour_write_fail (c : ClockService) (ble : BLE) (err : ble_error_t)
    (rest : List ble_error_t) (hs : ble.script = BLE_ERROR_NONE :: err :: rest)
    (herr : err ≠ BLE_ERROR_NONE) :
    c.increment_hour ble = ble.after ble.attrs rest
      [Call.read c._hour_char.valueHandle,
        Call.write c._hour_char.valueHandle
          ((ble.attrs c._hour_char.valueHandle % 256 + 1) % 24) false] := by
  have hm : (ble.attrs c._hour_char.valueHandle % 256 + 1) % 24 % 256
      = (ble.attrs c._hour_char.valueHandle % 256 + 1) % 24 := by omega
  unfold ClockService.increment_hour ReadWriteNotifyIndicateCharacteristic.get
    ReadWriteNotifyIndicateCharacteristic.set
  dsimp only
  rw [read_of_ok ble _ _ _ hs]
  simp only [ne_eq, not_true_eq_false, if_false, ite_self]
  rw [write_of_fail _ _ _ _ err rest rfl herr]
  simp [BLE.after, hm]

/-- The minute step when its read fails. -/
theorem increment_minute_read_fail (c : ClockService) (ble : BLE) (err : ble_error_t)
    (rest : List ble_error_t) (hs : ble.script = err :: rest) (herr : err ≠ BLE_ERROR_NONE) :
    c.increment_minute ble = ble.after ble.attrs rest [Call.read c._minute_char.valueHandle] := by
  unfold ClockService.increment_minute ReadWriteNotifyIndicateCharacteristic.get
  dsimp only
  rw [read_of_fail ble _ _ err rest hs herr]
  simp only [ne_eq, herr, not_false_eq_true, if_true, BLE.after]

/-- The minute step when its read succeeds and its write fails. -/
theorem increment_minute_write_fail (c : ClockService) (ble : BLE) (err : ble_error_t)
    (rest : List ble_error_t) (hs : ble.script = BLE_ERROR_NONE :: err :: rest)
    (herr : err ≠ BLE_ERROR_NONE) :
    c.increment_minute ble = ble.after ble.attrs rest
      [Call.read c._minute_char.valueHandle,
        Call.write c._minute_char.valueHandle
          ((ble.attrs c._minute_char.valueHandle % 256 + 1) % 60) false] := by
  have hm : (ble.attrs c._minute_char.valueHandle % 256 + 1) % 60 % 256
      = (ble.attrs c._minute_char.valueHandle % 256 + 1) % 60 := by omega
  unfold ClockService.increment_minute ReadWriteNotifyIndicateCharacteristic.get
    ReadWriteNotifyIndicateCharacteristic.set
  dsimp only
  rw [read_of_ok ble _ _ _ hs]
  simp only [ne_eq, not_true_eq_false, if_false]
  rw [write_of_fail _ _ _ _ err rest rfl herr]
  simp [BLE.after, hm, herr]

/-- The minute step when its read and write succeed. -/
theorem increment_minute_ok (c : ClockService) (ble : BLE)
    (rest : List ble_error_t) (hs : ble.script = BLE_ERROR_NONE :: BLE_ERROR_NONE :: rest) :
    c.increment_minute ble =
      if (ble.attrs c._minute_char.valueHandle % 256 + 1) % 60 = 0 then
        c.increment_hour (ble.after
          (setAttr ble.attrs c._minute_char.valueHandle
            ((ble.attrs c._minute_char.valueHandle % 256 + 1) % 60)) rest
          [Call.read c._minute_char.valueHandle,
            Call.write c._minute_char.valueHandle
              ((ble.attrs c._minute_char.valueHandle % 256 + 1) % 60) false])
      else
        ble.after
          (setAttr ble.attrs c._minute_char.valueHandle
            ((ble.attrs c._minute_char.valueHandle % 256 + 1) % 60)) rest
          [Call.read c._minute_char.valueHandle,
            Call.write c._minute_char.valueHandle
              ((ble.attrs c._minute_char.valueHandle % 256 + 1) % 60) false] := by
  have hm : (ble.attrs c._minute_char.valueHandle % 256 + 1) % 60 % 256
      = (ble.attrs c._minute_char.valueHandle % 256 + 1) % 60 := by omega
  unfold ClockService.increment_minute ReadWriteNotifyIndicateCharacteristic.get
    ReadWriteNotifyIndicateCharacteristic.set
  dsimp only
  rw [read_of_ok ble _ _ _ hs]
  simp only [ne_eq, not_true_eq_false, if_false]
  rw [write_of_ok _ _ _ _ rest rfl]
  simp [BLE.after, hm]

/-- The second step when its read fails. -/
theorem increment_second_read_fail (c : ClockService) (ble : BLE) (err : ble_error_t)
    (rest : List ble_error_t) (hs : ble.script = err :: rest) (herr : err ≠ BLE_ERROR_NONE) :
    c.increment_second ble = ble.after ble.attrs rest [Call.read c._second_char.valueHandle] := by
  unfold ClockService.increment_second ReadWriteNotifyIndicateCharacteristic.get
  dsimp only
  rw [read_of_fail ble _ _ err rest hs herr]
  simp only [ne_eq, herr, not_false_eq_true, if_true, BLE.after]

/-- The second step when its read succeeds and its write fails. -/
theorem increment_second_write_fail (c : ClockService) (ble : BLE) (err : ble_error_t)
    (rest : List ble_error_t) (hs : ble.script = BLE_ERROR_NONE :: err :: rest)
    (herr : err ≠ BLE_ERROR_NONE) :
    c.increment_second ble = ble.after ble.attrs rest
      [Call.read c._second_char.valueHandle,
        Call.write c._second_char.valueHandle
          ((ble.attrs c._second_char.valueHandle % 256 + 1) % 60) false] := by
  have hm : (ble.attrs c._second_char.valueHandle % 256 + 1) % 60 % 256
      = (ble.attrs c._second_char.valueHandle % 256 + 1) % 60 := by omega
  unfold ClockService.increment_second ReadWriteNotifyIndicateCharacteristic.get
    ReadWriteNotifyIndicateCharacteristic.set
  dsimp only
  rw [read_of_ok ble _ _ _ hs]
  simp only [ne_eq, not_true_eq_false, if_false]
  rw [write_of_fail _ _ _ _ err rest rfl herr]
  simp [BLE.after, hm, herr]

/-- The second step when its read and write succeed. -/
theorem increment_second_ok (c : ClockService) (ble : BLE)
    (rest : List ble_error_t) (hs : ble.script = BLE_ERROR_NONE :: BLE_ERROR_NONE :: rest) :
    c.increment_second ble =
      if (ble.attrs c._second_char.valueHandle % 256 + 1) % 60 = 0 then
        c.increment_minute (ble.after
          (setAttr ble.attrs c._second_char.valueHandle
            ((ble.attrs c._second_char.valueHandle % 256 + 1) % 60)) rest
          [Call.read c._second_char.valueHandle,
            Call.write c._second_char.valueHandle
              ((ble.attrs c._second_char.valueHandle % 256 + 1) % 60) false])
      else
        ble.after
          (setAttr ble.attrs c._second_char.valueHandle
            ((ble.attrs c._second_char.valueHandle % 256 + 1) % 60)) rest
          [Call.read c._second_char.valueHandle,
            Call.write c._second_char.valueHandle
              ((ble.attrs c._second_char.valueHandle % 256 + 1) % 60) false] := by
  have hm : (ble.attrs c._second_char.valueHandle % 256 + 1) % 60 % 256
      = (ble.attrs c._second_char.valueHandle % 256 + 1) % 60 := by omega
  unfold ClockService.increment_second ReadWriteNotifyIndicateCharacteristic.get
    ReadWriteNotifyIndicateCharacteristic.set
  dsimp only
  rw [read_of_ok ble _ _ _ hs]
  simp only [ne_eq, not_true_eq_false, if_false]
  rw [write_of_ok _ _ _ _ rest rfl]
  simp [BLE.after, hm]

theorem after_after (ble : BLE) (a1 a2 : Handle_t → Nat) (s1 s2 : List ble_error_t)
    (l1 l2 : List Call) :
    (ble.after a1 s1 l1).after a2 s2 l2 = ble.after a2 s2 (l1 ++ l2) := by
  simp [BLE.after, List.append_assoc]

theorem callsSince_after (ble : BLE) (a : Handle_t → Nat) (s : List ble_error_t)
    (l : List Call) : (ble.after a s l).callsSince ble = l := by
  simp [BLE.callsSince, BLE.after]

theorem storedTime_after (c : ClockService) (ble : BLE) (a : Handle_t → Nat)
    (s : List ble_error_t) (l : List Call) :
    c.storedTime (ble.after a s l)
      = (a c._hour_char.valueHandle, a c._minute_char.valueHandle,
          a c._second_char.valueHandle) :=
  rfl

theorem attrs_after (ble : BLE) (a : Handle_t → Nat) (s : List ble_error_t) (l : List Call) :
    (ble.after a s l).attrs = a :=
  rfl

/-- C10: a failing read or write ends the tick at once and nothing is rolled
back.  `err` is the failing answer; the answers before it are successes.  In
each case the calls of the tick end with the failing one, and the stored time
keeps every value written before it: a failing second read or write leaves
`(h, m, s)`; a failing minute read or write leaves `(h, m, 0)`; a failing hour
read or write leaves `(h, 0, 0)`. -/
theorem increment_second_abort (c : ClockService) (ble : BLE) (hd : c.distinctHandles)
    (h m s : Nat) (ht : c.storedTime ble = (h, m, s))
    (err : ble_error_t) (rest : List ble_error_t) (herr : err ≠ BLE_ERROR_NONE) :
    (ble.script = err :: rest →
      (c.increment_second ble).callsSince ble = [Call.read c._second_char.valueHandle] ∧
      c.storedTime (c.increment_second ble) = (h, m, s)) ∧
    (ble.script = BLE_ERROR_NONE :: err :: rest →
      (c.increment_second ble).callsSince ble =
        [Call.read c._second_char.valueHandle,
          Call.write c._second_char.valueHandle ((s % 256 + 1) % 60) false] ∧
      c.storedTime (c.increment_second ble) = (h, m, s)) ∧
    (ble.script = BLE_ERROR_NONE :: BLE_ERROR_NONE :: err :: rest →
      (s % 256 + 1) % 60 = 0 →
      (c.increment_second ble).callsSince ble =
        [Call.read c._second_char.valueHandle,
          Call.write c._second_char.valueHandle 0 false,
          Call.read c._minute_char.valueHandle] ∧
      c.storedTime (c.increment_second ble) = (h, m, 0)) ∧
    (ble.script = BLE_ERROR_NONE :: BLE_ERROR_NONE :: BLE_ERROR_NONE :: err :: rest →
      (s % 256 + 1) % 60 = 0 →
      (c.increment_second ble).callsSince ble =
        [Call.read c._second_char.valueHandle,
          Call.write c._second_char.valueHandle 0 false,
          Call.read c._minute_char.valueHandle,
          Call.write c._minute_char.valueHandle ((m % 256 + 1) % 60) false] ∧
      c.storedTime (c.increment_second ble) = (h, m, 0)) ∧
    (ble.script = BLE_ERROR_NONE :: BLE_ERROR_NONE :: BLE_ERROR_NONE :: BLE_ERROR_NONE
        :: err :: rest →
      (s % 256 + 1) % 60 = 0 → (m % 256 + 1) % 60 = 0 →
      (c.increment_second ble).callsSince ble =
        [Call.read c._second_char.valueHandle,
          Call.write c._second_char.valueHandle 0 false,
          Call.read c._minute_char.valueHandle,
          Call.write c._minute_char.valueHandle 0 false,
          Call.read c._hour_char.valueHandle] ∧
      c.storedTime (c.increment_second ble) = (h, 0, 0)) ∧
    (ble.script = BLE_ERROR_NONE :: BLE_ERROR_NONE :: BLE_ERROR_NONE :: BLE_ERROR_NONE
        :: BLE_ERROR_NONE :: err :: rest →
      (s % 256 + 1) % 60 = 0 → (m % 256 + 1) % 60 = 0 →
      (c.increment_second ble).callsSince ble =
        [Call.read c._second_char.valueHandle,
          Call.write c._second_char.valueHandle 0 false,
          Call.read c._minute_char.valueHandle,
          Call.write c._minute_char.valueHandle 0 false,
          Call.read c._hour_char.valueHandle,
          Call.write c._hour_char.valueHandle ((h % 256 + 1) % 24) false] ∧
      c.storedTime (c.increment_second ble) = (h, 0, 0)) := by
  obtain ⟨hhm, hhs, hms⟩ := hd
  have eh : ble.attrs c._hour_char.valueHandle = h := congrArg Prod.fst ht
  have em : ble.attrs c._minute_char.valueHandle = m := congrArg (fun t => t.2.1) ht
  have es : ble.attrs c._second_char.valueHandle = s := congrArg (fun t => t.2.2) ht
  refine ⟨?_, ?_, ?_, ?_, ?_, ?_⟩
  · intro hs
    rw [increment_second_read_fail c ble err rest hs herr, callsSince_after, storedTime_after,
      eh, em, es]
    exact ⟨rfl, rfl⟩
  · intro hs
    rw [increment_second_write_fail c ble err rest hs herr, callsSince_after, storedTime_after,
      eh, em, es]
    exact ⟨rfl, rfl⟩
  · intro hs hw
    rw [increment_second_ok c ble _ hs, es, if_pos hw, hw,
      increment_minute_read_fail c _ err rest rfl herr, after_after, callsSince_after,
      storedTime_after, attrs_after]
    simp [setAttr, hhs, hms, eh, em]
  · intro hs hw
    rw [increment_second_ok c ble _ hs, es, if_pos hw, hw,
      increment_minute_write_fail c _ err rest rfl herr, after_after, callsSince_after,
      storedTime_after, attrs_after]
    simp [setAttr, hhs, hms, eh, em]
  · intro hs hw hmw
    have e1 : setAttr ble.attrs c._second_char.valueHandle 0 c._minute_char.valueHandle = m := by
      simp [setAttr, hms, em]
    rw [increment_second_ok c ble _ hs, es, if_pos hw, hw,
      increment_minute_ok c _ _ rfl, attrs_after, e1, if_pos hmw, hmw, after_after,
      increment_hour_read_fail c _ err rest rfl herr, after_after, callsSince_after,
      storedTime_after, attrs_after]
    simp [setAttr, hhs, hms, hhm, Ne.symm hms, eh]
  · intro hs hw hmw
    have e1 : setAttr ble.attrs c._second_char.valueHandle 0 c._minute_char.valueHandle = m := by
      simp [setAttr, hms, em]
    rw [increment_second_ok c ble _ hs, es, if_pos hw, hw,
      increment_minute_ok c _ _ rfl, attrs_after, e1, if_pos hmw, hmw, after_after,
      increment_hour_write_fail c _ err rest rfl herr, after_after, callsSince_after,
      storedTime_after, attrs_after]
    simp [setAttr, hhs, hms, hhm, Ne.symm hms, eh]

/-- Witness of C10: a failing second read (code 9), a failing minute write
(code 5) and a failing hour write (code 4). -/
theorem increment_second_abort_witness :
    sampleClock.distinctHandles ∧
    ((sampleClock.increment_second (sampleBLE 7 30 15 [9, 0])).callsSince (sampleBLE 7 30 15 [9, 0])
        = [Call.read 18] ∧
      sampleClock.storedTime (sampleClock.increment_second (sampleBLE 7 30 15 [9, 0]))
        = (7, 30, 15)) ∧
    ((sampleClock.increment_second (sampleBLE 23 59 59 [0, 0, 0, 5])).callsSince
          (sampleBLE 23 59 59 [0, 0, 0, 5])
        = [Call.read 18, Call.write 18 0 false, Call.read 15, Call.write 15 0 false] ∧
      sampleClock.storedTime (sampleClock.increment_second (sampleBLE 23 59 59 [0, 0, 0, 5]))
        = (23, 59, 0)) ∧
    ((sampleClock.increment_second (sampleBLE 23 59 59 [0, 0, 0, 0, 0, 4])).callsSince
          (sampleBLE 23 59 59 [0, 0, 0, 0, 0, 4])
        = [Call.read 18, Call.write 18 0 false, Call.read 15, Call.write 15 0 false,
            Call.read 12, Call.write 12 0 false] ∧
      sampleClock.storedTime (sampleClock.increment_second (sampleBLE 23 59 59 [0, 0, 0, 0, 0, 4]))
        = (23, 0, 0)) :=
  ⟨by decide,
    (increment_second_abort sampleClock (sampleBLE 7 30 15 [9, 0]) (by decide) 7 30 15 rfl
      9 [0] (by decide)).1 rfl,
    (increment_second_abort sampleClock (sampleBLE 23 59 59 [0, 0, 0, 5]) (by decide) 23 59 59 rfl
      5 [] (by decide)).2.2.2.1 rfl (by decide),
    (increment_second_abort sampleClock (sampleBLE 23 59 59 [0, 0, 0, 0, 0, 4]) (by decide)
      23 59 59 rfl 4 [] (by decide)).2.2.2.2.2 rfl (by decide) (by decide)⟩

/-! ## Lifecycle manager -/

theorem respond_after_drop (ble : BLE) (a : Handle_t → Nat) (k : Nat) (l : List Call)
    (c : Call) :
    (ble.after a (ble.script.drop k) l).respond c
      = (ble.answer k, ble.after a (ble.script.drop (k + 1)) (l ++ [c])) := by
  unfold BLE.respond BLE.after BLE.answer
  simp [List.getD_eq_getElem?_getD]

theorem record_after (ble : BLE) (a : Handle_t → Nat) (s : List ble_error_t) (l : List Call)
    (c : Call) : (ble.after a s l).record c = ble.after a s (l ++ [c]) := by
  simp [BLE.record, BLE.after]

theorem after_nil (ble : BLE) : ble.after ble.attrs (ble.script.drop 0) [] = ble := by
  simp [BLE.after]

theorem set_advertising_parameters_after (p : BLEProcess) (ble : BLE) (a : Handle_t → Nat)
    (k : Nat) (l : List Call) :
    p.set_advertising_parameters (ble.after a (ble.script.drop k) l)
      = (decide (ble.answer k = BLE_ERROR_NONE),
          ble.after a (ble.script.drop (k + 1))
            (l ++ [Call.setAdvertisingParameters LEGACY_ADVERTISING_HANDLE])) := by
  unfold BLEProcess.set_advertising_parameters Gap.setAdvertisingParameters
  rw [respond_after_drop]
  by_cases h : ble.answer k = BLE_ERROR_NONE <;> simp [h]

theorem set_advertising_data_after (p : BLEProcess) (ble : BLE) (a : Handle_t → Nat)
    (k : Nat) (l : List Call) :
    p.set_advertising_data (ble.after a (ble.script.drop k) l)
      = (decide (ble.answer k = BLE_ERROR_NONE),
          ble.after a (ble.script.drop (k + 1))
            (l ++ [Call.setAdvertisingPayload LEGACY_ADVERTISING_HANDLE "Final Project 2019"])) := by
  unfold BLEProcess.set_advertising_data Gap.setAdvertisingPayload
  rw [respond_after_drop]
  by_cases h : ble.answer k = BLE_ERROR_NONE <;> simp [h]

theorem start_advertising_after (p : BLEProcess) (ble : BLE) (a : Handle_t → Nat)
    (k : Nat) (l : List Call) :
    p.start_advertising (ble.after a (ble.script.drop k) l)
      = (decide (ble.answer k = BLE_ERROR_NONE),
          ble.after a (ble.script.drop (k + 1))
            (l ++ [Call.startAdvertising LEGACY_ADVERTISING_HANDLE])) := by
  unfold BLEProcess.start_advertising Gap.startAdvertising
  rw [respond_after_drop]
  by_cases h : ble.answer k = BLE_ERROR_NONE <;> simp [h]

/-- The calls of one run of `when_init_complete`, as a function of the event
and of the answers of the stack. -/
theorem when_init_complete_calls (p : BLEProcess) (ble : BLE)
    (event : InitializationCompleteCallbackContext) :
    (p.when_init_complete ble event).callsSince ble =
      if event.error ≠ BLE_ERROR_NONE then []
      else if ble.answer 0 ≠ BLE_ERROR_NONE then
        [Call.onConnection, Call.onDisconnection,
          Call.setAdvertisingParameters LEGACY_ADVERTISING_HANDLE]
      else if ble.answer 1 ≠ BLE_ERROR_NONE then
        [Call.onConnection, Call.onDisconnection,
          Call.setAdvertisingParameters LEGACY_ADVERTISING_HANDLE,
          Call.setAdvertisingPayload LEGACY_ADVERTISING_HANDLE "Final Project 2019"]
      else if ble.answer 2 ≠ BLE_ERROR_NONE then
        [Call.onConnection, Call.onDisconnection,
          Call.setAdvertisingParameters LEGACY_ADVERTISING_HANDLE,
          Call.setAdvertisingPayload LEGACY_ADVERTISING_HANDLE "Final Project 2019",
          Call.startAdvertising LEGACY_ADVERTISING_HANDLE]
      else
        [Call.onConnection, Call.onDisconnection,
          Call.setAdvertisingParameters LEGACY_ADVERTISING_HANDLE,
          Call.setAdvertisingPayload LEGACY_ADVERTISING_HANDLE "Final Project 2019",
          Call.startAdvertising LEGACY_ADVERTISING_HANDLE]
          ++ (match p._post_init_cb with
              | some cb => [Call.post_init_cb cb]
              | none => []) := by
  by_cases he : event.error ≠ BLE_ERROR_NONE
  · simp [BLEProcess.when_init_complete, he, BLE.callsSince]
  · rw [if_neg he]
    have e0 : p.when_init_complete ble event
        = p.when_init_complete (ble.after ble.attrs (ble.script.drop 0) []) event := by
      rw [after_nil]
    rw [e0]
    unfold BLEProcess.when_init_complete
    rw [if_neg he]
    simp only [Gap.onConnection, Gap.onDisconnection, record_after,
      set_advertising_parameters_after, set_advertising_data_after, start_advertising_after,
      List.nil_append, List.cons_append, Nat.zero_add, Nat.reduceAdd]
    by_cases h0 : ble.answer 0 ≠ BLE_ERROR_NONE
    · simp [h0, callsSince_after]
    · by_cases h1 : ble.answer 1 ≠ BLE_ERROR_NONE
      · simp [h0, h1, callsSince_after]
      · by_cases h2 : ble.answer 2 ≠ BLE_ERROR_NONE
        · simp [h0, h1, h2, callsSince_after]
        · cases p._post_init_cb <;> simp [h0, h1, h2, record_after, callsSince_after]

/-- C7: in one run of `when_init_complete` with the callback `cb` registered
through `on_init`, the callback is invoked exactly once when the event carries
no error and the stack answers success to `setAdvertisingParameters` (answer 0),
`setAdvertisingPayload` (answer 1) and `startAdvertising` (answer 2); it is not
invoked at all when the event carries an error or one of the three fails. -/
theorem when_init_complete_callback (p : BLEProcess) (ble : BLE)
    (event : InitializationCompleteCallbackContext) (cb : Nat) :
    ((((p.on_init (some cb)).when_init_complete ble event).callsSince ble).filter Call.isCallback
      = if event.error = BLE_ERROR_NONE ∧ ble.answer 0 = BLE_ERROR_NONE ∧
            ble.answer 1 = BLE_ERROR_NONE ∧ ble.answer 2 = BLE_ERROR_NONE
        then [Call.post_init_cb cb] else []) ∧
    ((((p.on_init (some cb)).when_init_complete ble event).callsSince ble).count
        (Call.post_init_cb cb)
      = if event.error = BLE_ERROR_NONE ∧ ble.answer 0 = BLE_ERROR_NONE ∧
            ble.answer 1 = BLE_ERROR_NONE ∧ ble.answer 2 = BLE_ERROR_NONE
        then 1 else 0) := by
  rw [when_init_complete_calls]
  by_cases he : event.error = BLE_ERROR_NONE
  · by_cases h0 : ble.answer 0 = BLE_ERROR_NONE
    · by_cases h1 : ble.answer 1 = BLE_ERROR_NONE
      · by_cases h2 : ble.answer 2 = BLE_ERROR_NONE
        · simp [he, h0, h1, h2, BLEProcess.on_init, Call.isCallback]
        · simp [he, h0, h1, h2, Call.isCallback]
      · simp [he, h0, h1, Call.isCallback]
    · simp [he, h0, Call.isCallback]
  · simp [he]

/-- C8: `when_init_complete` calls `setAdvertisingParameters`,
`setAdvertisingPayload` and `startAdvertising` in this order and stops at the
first one that fails.  With an error in the event nothing is called and no
connection handler is installed; when the parameters fail the payload and the
start are not called; when the payload fails the start is not called. -/
theorem when_init_complete_order (p : BLEProcess) (ble : BLE)
    (event : InitializationCompleteCallbackContext) :
    (event.error ≠ BLE_ERROR_NONE →
      (p.when_init_complete ble event).callsSince ble = [] ∧
      p.when_init_complete ble event = ble) ∧
    (event.error = BLE_ERROR_NONE → ble.answer 0 ≠ BLE_ERROR_NONE →
      (p.when_init_complete ble event).callsSince ble =
        [Call.onConnection, Call.onDisconnection,
          Call.setAdvertisingParameters LEGACY_ADVERTISING_HANDLE]) ∧
    (event.error = BLE_ERROR_NONE → ble.answer 0 = BLE_ERROR_NONE →
      ble.answer 1 ≠ BLE_ERROR_NONE →
      (p.when_init_complete ble event).callsSince ble =
        [Call.onConnection, Call.onDisconnection,
          Call.setAdvertisingParameters LEGACY_ADVERTISING_HANDLE,
          Call.setAdvertisingPayload LEGACY_ADVERTISING_HANDLE "Final Project 2019"]) ∧
    (event.error = BLE_ERROR_NONE → ble.answer 0 = BLE_ERROR_NONE →
      ble.answer 1 = BLE_ERROR_NONE →
      ((p.when_init_complete ble event).callsSince ble).filter (fun c => !c.isCallback) =
        [Call.onConnection, Call.onDisconnection,
          Call.setAdvertisingParameters LEGACY_ADVERTISING_HANDLE,
          Call.setAdvertisingPayload LEGACY_ADVERTISING_HANDLE "Final Project 2019",
          Call.startAdvertising LEGACY_ADVERTISING_HANDLE]) := by
  refine ⟨fun he => ?_, fun he h0 => ?_, fun he h0 h1 => ?_, fun he h0 h1 => ?_⟩
  · constructor
    · rw [when_init_complete_calls, if_pos he]
    · unfold BLEProcess.when_init_complete
      rw [if_pos he]
  · rw [when_init_complete_calls]
    simp [he, h0]
  · rw [when_init_complete_calls]
    simp [he, h0, h1]
  · rw [when_init_complete_calls]
    by_cases h2 : ble.answer 2 = BLE_ERROR_NONE
    · cases hp : p._post_init_cb <;> simp [he, h0, h1, h2, Call.isCallback]
    · simp [he, h0, h1, h2, Call.isCallback]

/-- Witness of C8: the parameters fail with code 3, so only the two handler
registrations and `setAdvertisingParameters` are issued; and an init event
with error 7 issues nothing. -/
theorem when_init_complete_order_witness :
    (freshBLE [3]).answer 0 ≠ BLE_ERROR_NONE ∧
    (((BLEProcess.ctor 0).on_init (some 1)).when_init_complete (freshBLE [3])
        { error := BLE_ERROR_NONE }).callsSince (freshBLE [3]) =
      [Call.onConnection, Call.onDisconnection,
        Call.setAdvertisingParameters LEGACY_ADVERTISING_HANDLE] ∧
    (((BLEProcess.ctor 0).on_init (some 1)).when_init_complete (freshBLE [])
        { error := 7 }).callsSince (freshBLE []) = [] :=
  ⟨by decide,
    (when_init_complete_order ((BLEProcess.ctor 0).on_init (some 1)) (freshBLE [3])
      { error := BLE_ERROR_NONE }).2.1 rfl (by decide),
    ((when_init_complete_order ((BLEProcess.ctor 0).on_init (some 1)) (freshBLE [])
      { error := 7 }).1 (by decide)).1⟩

/-- C9: `start` returns true exactly when the stack reports that it is not yet
initialized and answers the init call (answer 0) with success.  When the stack
reports initialized, `start` returns false and the query `hasInitialized` is
its only call; otherwise it issues the query, the event-pump registration and
init, in this order. -/
theorem start_result (p : BLEProcess) (ble : BLE) :
    ((p.start ble).1 = true ↔
      (ble.initialized = false ∧ ble.answer 0 = BLE_ERROR_NONE)) ∧
    (ble.initialized = true →
      (p.start ble).1 = false ∧ (p.start ble).2.callsSince ble = [Call.hasInitialized] ∧
      (p.start ble).2.script = ble.script) ∧
    (ble.initialized = false →
      (p.start ble).2.callsSince ble
        = [Call.hasInitialized, Call.onEventsToProcess, Call.init]) := by
  have e0 : ble.script.headD BLE_ERROR_NONE = ble.answer 0 := by
    unfold BLE.answer
    cases ble.script <;> rfl
  unfold BLEProcess.start BLE.hasInitialized BLE.onEventsToProcess BLE.init BLE.respond
    BLE.record
  dsimp only
  rw [e0]
  cases hi : ble.initialized
  · by_cases h0 : ble.answer 0 = BLE_ERROR_NONE <;> simp [h0, BLE.callsSince]
  · simp [BLE.callsSince]

/-- Witness of C9: a second start, on a stack that reports initialized. -/
theorem start_result_witness :
    (sampleBLE 0 0 0 []).initialized = true ∧
    ((BLEProcess.ctor 0).start (sampleBLE 0 0 0 [])).1 = false ∧
    ((BLEProcess.ctor 0).start (sampleBLE 0 0 0 [])).2.callsSince (sampleBLE 0 0 0 [])
      = [Call.hasInitialized] ∧
    ((BLEProcess.ctor 0).start (freshBLE [])).1 = true ∧
    ((BLEProcess.ctor 0).start (freshBLE [5])).1 = false :=
  ⟨rfl,
    ((start_result (BLEProcess.ctor 0) (sampleBLE 0 0 0 [])).2.1 rfl).1,
    ((start_result (BLEProcess.ctor 0) (sampleBLE 0 0 0 [])).2.1 rfl).2.1,
    rfl, rfl⟩

/-! ## Start of the clock service -/

/-- A service that has already been started ignores `start`. -/
theorem start_of_started (c : ClockService) (ble : BLE) (hh mh sh : Handle_t)
    (h : c._event_queue = true) : c.start ble hh mh sh = (c, ble) := by
  unfold ClockService.start
  rw [if_pos h]

/-- After any call of `start` the service counts as started, also when the
registration failed. -/
theorem start_event_queue (c : ClockService) (ble : BLE) (hh mh sh : Handle_t) :
    (c.start ble hh mh sh).1._event_queue = true := by
  unfold ClockService.start GattServer.addService
  dsimp only
  by_cases h : c._event_queue = true
  · rw [if_pos h]; exact h
  · rw [if_neg h]
    split_ifs <;> rfl

/-- A sequence of `start` calls on a started service changes nothing. -/
theorem startAll_of_started (l : List (Handle_t × Handle_t × Handle_t)) :
    ∀ (c : ClockService) (ble : BLE), c._event_queue = true →
      c.startAll ble l = (c, ble) := by
  induction l with
  | nil => intro c ble _; rfl
  | cons hs rest ih =>
    intro c ble h
    rw [ClockService.startAll, start_of_started c ble _ _ _ h]
    exact ih c ble h

/-- The calls of the first `start`, as a function of the answer to
`addService`. -/
theorem start_calls (c : ClockService) (ble : BLE) (hh mh sh : Handle_t)
    (h : c._event_queue = false) :
    (c.start ble hh mh sh).2.callsSince ble =
      if ble.answer 0 ≠ BLE_ERROR_NONE then [Call.addService]
      else [Call.addService, Call.onDataSent, Call.onDataWritten, Call.onDataRead,
        Call.onUpdatesEnabled, Call.onUpdatesDisabled, Call.onConfirmationReceived,
        Call.call_every 1000] := by
  have e0 : ble.script.headD BLE_ERROR_NONE = ble.answer 0 := by
    unfold BLE.answer
    cases ble.script <;> rfl
  unfold ClockService.start GattServer.addService BLE.respond
  dsimp only
  rw [e0]
  simp only [h, Bool.false_eq_true, if_false]
  by_cases h0 : ble.answer 0 ≠ BLE_ERROR_NONE
  · simp [h0, BLE.callsSince]
  · simp [h0, BLE.callsSince, GattServer.onDataSent, GattServer.onDataWritten,
      GattServer.onDataRead, GattServer.onUpdatesEnabled, GattServer.onUpdatesDisabled,
      GattServer.onConfirmationReceived, EventQueue.call_every, BLE.record]

/-- C11: in any sequence of `start` calls on a service that has not been
started, all calls are issued by the first one: `addService` is called exactly
once, first of all, and the later calls of the sequence leave the service and
the environment as they are.  The recurring 1000 ms tick is scheduled exactly
once when `addService` answers success and never when it fails; after the
first call the service ignores every further `start`, so nothing is retried. -/
theorem start_once (c : ClockService) (ble : BLE)
    (hs : Handle_t × Handle_t × Handle_t) (rest : List (Handle_t × Handle_t × Handle_t))
    (h : c._event_queue = false) :
    c.startAll ble (hs :: rest) = c.start ble hs.1 hs.2.1 hs.2.2 ∧
    ((c.startAll ble (hs :: rest)).2.callsSince ble).count Call.addService = 1 ∧
    ((c.startAll ble (hs :: rest)).2.callsSince ble).head? = some Call.addService ∧
    ((c.startAll ble (hs :: rest)).2.callsSince ble).filter Call.isCallEvery
      = (if ble.answer 0 = BLE_ERROR_NONE then [Call.call_every 1000] else []) ∧
    ((c.startAll ble (hs :: rest)).2.callsSince ble).count (Call.call_every 1000)
      = (if ble.answer 0 = BLE_ERROR_NONE then 1 else 0) ∧
    (∀ (env : BLE) (hh mh sh : Handle_t),
      (c.start ble hs.1 hs.2.1 hs.2.2).1.start env hh mh sh
        = ((c.start ble hs.1 hs.2.1 hs.2.2).1, env)) := by
  have hq := start_event_queue c ble hs.1 hs.2.1 hs.2.2
  have e1 : c.startAll ble (hs :: rest) = c.start ble hs.1 hs.2.1 hs.2.2 := by
    rw [ClockService.startAll, startAll_of_started rest _ _ hq]
  refine ⟨e1, ?_, ?_, ?_, ?_, fun env hh mh sh => start_of_started _ env hh mh sh hq⟩
  all_goals rw [e1, start_calls c ble _ _ _ h]
  all_goals by_cases h0 : ble.answer 0 = BLE_ERROR_NONE
  all_goals simp [h0, Call.isCallEvery]

/-- Witness of C11: three `start` calls on the freshly constructed service,
once with a stack that accepts the registration and once with a stack that
refuses it with code 4. -/
theorem start_once_witness :
    ClockService.ctor._event_queue = false ∧
    (ClockService.ctor.startAll (freshBLE []) [(12, 15, 18), (20, 21, 22), (30, 31, 32)]).2.callsSince
        (freshBLE [])
      = [Call.addService, Call.onDataSent, Call.onDataWritten, Call.onDataRead,
          Call.onUpdatesEnabled, Call.onUpdatesDisabled, Call.onConfirmationReceived,
          Call.call_every 1000] ∧
    ((ClockService.ctor.startAll (freshBLE []) [(12, 15, 18), (20, 21, 22), (30, 31, 32)]).2.callsSince
        (freshBLE [])).count Call.addService = 1 ∧
    ((ClockService.ctor.startAll (freshBLE [4]) [(12, 15, 18), (20, 21, 22)]).2.callsSince
        (freshBLE [4])).filter Call.isCallEvery = [] :=
  ⟨rfl, by decide,
    (start_once ClockService.ctor (freshBLE []) (12, 15, 18) [(20, 21, 22), (30, 31, 32)] rfl).2.1,
    (start_once ClockService.ctor (freshBLE [4]) (12, 15, 18) [(20, 21, 22)] rfl).2.2.2.1⟩

/-! ## Disconnection -/

/-- C12: for every disconnection event and every state of the stack, the only
call issued by `when_disconnection`, and so the first one, is `startAdvertising`
on the legacy advertising handle; it is issued whatever the stack answers to
it (answer 0), and that answer is the only one consumed. -/
theorem when_disconnection_restarts (p : BLEProcess) (ble : BLE)
    (event : DisconnectionCallbackParams_t) :
    ((p.when_disconnection ble event).callsSince ble).head?
      = some (Call.startAdvertising LEGACY_ADVERTISING_HANDLE) ∧
    (p.when_disconnection ble event).callsSince ble
      = [Call.startAdvertising LEGACY_ADVERTISING_HANDLE] ∧
    (p.start_advertising ble).1 = decide (ble.answer 0 = BLE_ERROR_NONE) ∧
    (p.when_disconnection ble event).script = ble.script.tail := by
  have e : p.start_advertising ble
      = (decide (ble.answer 0 = BLE_ERROR_NONE),
          ble.after ble.attrs (ble.script.drop (0 + 1))
            ([] ++ [Call.startAdvertising LEGACY_ADVERTISING_HANDLE])) := by
    have := start_advertising_after p ble ble.attrs 0 []
    rwa [after_nil] at this
  unfold BLEProcess.when_disconnection
  rw [e]
  simp [BLE.callsSince, BLE.after]

/-! ## Ticks on arbitrary stored bytes -/

/-- A write leaves the bytes at the other handles as they were. -/
theorem write_attrs_other (server : BLE) (handle x : Handle_t) (value : Nat) (lo : Bool)
    (hx : x ≠ handle) :
    (GattServer.write server handle value lo).2.attrs x = server.attrs x := by
  rcases write_attrs server handle value lo with ⟨_, e⟩ | ⟨_, e⟩
  · rw [e]
  · rw [e]
    simp [setAttr, hx]

/-- A read appends itself to the trace. -/
theorem read_trace (server : BLE) (handle : Handle_t) (dst : Nat) :
    (GattServer.read server handle dst).2.2.trace = server.trace ++ [Call.read handle] := by
  unfold GattServer.read BLE.respond
  dsimp only
  split <;> rfl

/-- A write appends itself to the trace. -/
theorem write_trace (server : BLE) (handle : Handle_t) (value : Nat) (lo : Bool) :
    (GattServer.write server handle value lo).2.trace
      = server.trace ++ [Call.write handle value lo] := by
  unfold GattServer.write BLE.respond
  dsimp only
  split <;> rfl

/-- The hour step only touches the byte at the hour handle. -/
theorem increment_hour_attrs_other (c : ClockService) (ble : BLE) (x : Handle_t)
    (hx : x ≠ c._hour_char.valueHandle) :
    (c.increment_hour ble).attrs x = ble.attrs x := by
  unfold ClockService.increment_hour ReadWriteNotifyIndicateCharacteristic.get
    ReadWriteNotifyIndicateCharacteristic.set
  dsimp only
  split_ifs
  · rw [read_attrs]
  · rw [write_attrs_other _ _ _ _ _ hx, read_attrs]
  · rw [write_attrs_other _ _ _ _ _ hx, read_attrs]

/-- The minute step only touches the bytes at the minute and hour handles. -/
theorem increment_minute_attrs_other (c : ClockService) (ble : BLE) (x : Handle_t)
    (hx : x ≠ c._hour_char.valueHandle) (hy : x ≠ c._minute_char.valueHandle) :
    (c.increment_minute ble).attrs x = ble.attrs x := by
  unfold ClockService.increment_minute ReadWriteNotifyIndicateCharacteristic.get
    ReadWriteNotifyIndicateCharacteristic.set
  dsimp only
  split_ifs
  · rw [read_attrs]
  · rw [write_attrs_other _ _ _ _ _ hy, read_attrs]
  · rw [increment_hour_attrs_other c _ x hx, write_attrs_other _ _ _ _ _ hy, read_attrs]
  · rw [write_attrs_other _ _ _ _ _ hy, read_attrs]

/-- The hour step begins with a read of the hour handle. -/
theorem increment_hour_trace (c : ClockService) (ble : BLE) :
    ∃ l : List Call,
      (c.increment_hour ble).trace = ble.trace ++ Call.read c._hour_char.valueHandle :: l := by
  unfold ClockService.increment_hour ReadWriteNotifyIndicateCharacteristic.get
    ReadWriteNotifyIndicateCharacteristic.set
  dsimp only
  split_ifs
  · exact ⟨[], by rw [read_trace]⟩
  · exact ⟨_, by rw [write_trace, read_trace, List.append_assoc]; rfl⟩
  · exact ⟨_, by rw [write_trace, read_trace, List.append_assoc]; rfl⟩

/-- The minute step begins with a read of the minute handle. -/
theorem increment_minute_trace (c : ClockService) (ble : BLE) :
    ∃ l : List Call,
      (c.increment_minute ble).trace
        = ble.trace ++ Call.read c._minute_char.valueHandle :: l := by
  unfold ClockService.increment_minute ReadWriteNotifyIndicateCharacteristic.get
    ReadWriteNotifyIndicateCharacteristic.set
  dsimp only
  split_ifs
  · exact ⟨[], by rw [read_trace]⟩
  · exact ⟨_, by rw [write_trace, read_trace, List.append_assoc]; rfl⟩
  · obtain ⟨l, hl⟩ := increment_hour_trace c
      (GattServer.write (GattServer.read ble c._minute_char.valueHandle 0).2.2
        c._minute_char.valueHandle
        (((GattServer.read ble c._minute_char.valueHandle 0).2.1 + 1) % 60 % 256) false).2
    exact ⟨_, by rw [hl, write_trace, read_trace, List.append_assoc, List.append_assoc]; rfl⟩
  · exact ⟨_, by rw [write_trace, read_trace, List.append_assoc]; rfl⟩

/-- The hour step when its read and write succeed. -/
theorem increment_hour_ok (c : ClockService) (ble : BLE)
    (rest : List ble_error_t) (hs : ble.script = BLE_ERROR_NONE :: BLE_ERROR_NONE :: rest) :
    c.increment_hour ble =
      ble.after
        (setAttr ble.attrs c._hour_char.valueHandle
          ((ble.attrs c._hour_char.valueHandle % 256 + 1) % 24)) rest
        [Call.read c._hour_char.valueHandle,
          Call.write c._hour_char.valueHandle
            ((ble.attrs c._hour_char.valueHandle % 256 + 1) % 24) false] := by
  have hm : (ble.attrs c._hour_char.valueHandle % 256 + 1) % 24 % 256
      = (ble.attrs c._hour_char.valueHandle % 256 + 1) % 24 := by omega
  unfold ClockService.increment_hour ReadWriteNotifyIndicateCharacteristic.get
    ReadWriteNotifyIndicateCharacteristic.set
  dsimp only
  rw [read_of_ok ble _ _ _ hs]
  simp only [ne_eq, not_true_eq_false, if_false, ite_self]
  rw [write_of_ok _ _ _ _ rest rfl]
  simp [BLE.after, hm]

/-- The second step on a stored byte `s`, when its read and write succeed. -/
theorem increment_second_byte (c : ClockService) (ble : BLE) (hd : c.distinctHandles)
    (h m s : Nat) (ht : c.storedTime ble = (h, m, s)) (hsb : s < 256)
    (rest : List ble_error_t) (hs : ble.script = BLE_ERROR_NONE :: BLE_ERROR_NONE :: rest) :
    (c.storedTime (c.increment_second ble)).2.2 = (s + 1) % 60 ∧
    (Call.read c._minute_char.valueHandle ∈ (c.increment_second ble).callsSince ble
      ↔ (s + 1) % 60 = 0) ∧
    ((s + 1) % 60 ≠ 0 → c.storedTime (c.increment_second ble) = (h, m, (s + 1) % 60)) := by
  obtain ⟨hhm, hhs, hms⟩ := hd
  have eh : ble.attrs c._hour_char.valueHandle = h := congrArg Prod.fst ht
  have em : ble.attrs c._minute_char.valueHandle = m := congrArg (fun t => t.2.1) ht
  have es : ble.attrs c._second_char.valueHandle = s := congrArg (fun t => t.2.2) ht
  have e := increment_second_ok c ble rest hs
  rw [es, Nat.mod_eq_of_lt hsb] at e
  by_cases hw : (s + 1) % 60 = 0
  · rw [if_pos hw] at e
    obtain ⟨l, hl⟩ := increment_minute_trace c
      (ble.after (setAttr ble.attrs c._second_char.valueHandle ((s + 1) % 60)) rest
        [Call.read c._second_char.valueHandle,
          Call.write c._second_char.valueHandle ((s + 1) % 60) false])
    refine ⟨?_, ?_, fun hne => absurd hw hne⟩
    · show (c.increment_second ble).attrs c._second_char.valueHandle = _
      rw [e, increment_minute_attrs_other c _ _ (Ne.symm hhs) (Ne.symm hms)]
      simp [BLE.after, setAttr]
    · rw [e]
      unfold BLE.callsSince
      rw [hl]
      simp [BLE.after, hw]
  · rw [if_neg hw] at e
    refine ⟨?_, ?_, fun _ => ?_⟩
    · rw [e, storedTime_after]
      simp [setAttr]
    · rw [e, callsSince_after]
      simp [hw, hms]
    · rw [e, storedTime_after]
      simp [setAttr, hhs, hms, eh, em]

/-- The minute step on a stored byte `m`, when its read and write succeed. -/
theorem increment_minute_byte (c : ClockService) (ble : BLE) (hd : c.distinctHandles)
    (h m s : Nat) (ht : c.storedTime ble = (h, m, s)) (hmb : m < 256)
    (rest : List ble_error_t) (hs : ble.script = BLE_ERROR_NONE :: BLE_ERROR_NONE :: rest) :
    (c.storedTime (c.increment_minute ble)).2.1 = (m + 1) % 60 ∧
    (Call.read c._hour_char.valueHandle ∈ (c.increment_minute ble).callsSince ble
      ↔ (m + 1) % 60 = 0) ∧
    ((m + 1) % 60 ≠ 0 → c.storedTime (c.increment_minute ble) = (h, (m + 1) % 60, s)) := by
  obtain ⟨hhm, hhs, hms⟩ := hd
  have eh : ble.attrs c._hour_char.valueHandle = h := congrArg Prod.fst ht
  have em : ble.attrs c._minute_char.valueHandle = m := congrArg (fun t => t.2.1) ht
  have es : ble.attrs c._second_char.valueHandle = s := congrArg (fun t => t.2.2) ht
  have e := increment_minute_ok c ble rest hs
  rw [em, Nat.mod_eq_of_lt hmb] at e
  by_cases hw : (m + 1) % 60 = 0
  · rw [if_pos hw] at e
    obtain ⟨l, hl⟩ := increment_hour_trace c
      (ble.after (setAttr ble.attrs c._minute_char.valueHandle ((m + 1) % 60)) rest
        [Call.read c._minute_char.valueHandle,
          Call.write c._minute_char.valueHandle ((m + 1) % 60) false])
    refine ⟨?_, ?_, fun hne => absurd hw hne⟩
    · show (c.increment_minute ble).attrs c._minute_char.valueHandle = _
      rw [e, increment_hour_attrs_other c _ _ (Ne.symm hhm)]
      simp [BLE.after, setAttr]
    · rw [e]
      unfold BLE.callsSince
      rw [hl]
      simp [BLE.after, hw]
  · rw [if_neg hw] at e
    refine ⟨?_, ?_, fun _ => ?_⟩
    · rw [e, storedTime_after]
      simp [setAttr]
    · rw [e, callsSince_after]
      simp [hw, hhm]
    · rw [e, storedTime_after]
      simp [setAttr, hhm, Ne.symm hms, eh, es]

/-- The hour step on a stored byte `h`, when its read and write succeed. -/
theorem increment_hour_byte (c : ClockService) (ble : BLE) (hd : c.distinctHandles)
    (h m s : Nat) (ht : c.storedTime ble = (h, m, s)) (hhb : h < 256)
    (rest : List ble_error_t) (hs : ble.script = BLE_ERROR_NONE :: BLE_ERROR_NONE :: rest) :
    c.storedTime (c.increment_hour ble) = ((h + 1) % 24, m, s) ∧
    (c.increment_hour ble).callsSince ble =
      [Call.read c._hour_char.valueHandle,
        Call.write c._hour_char.valueHandle ((h + 1) % 24) false] := by
  obtain ⟨hhm, hhs, hms⟩ := hd
  have eh : ble.attrs c._hour_char.valueHandle = h := congrArg Prod.fst ht
  have em : ble.attrs c._minute_char.valueHandle = m := congrArg (fun t => t.2.1) ht
  have es : ble.attrs c._second_char.valueHandle = s := congrArg (fun t => t.2.2) ht
  have e := increment_hour_ok c ble rest hs
  rw [eh, Nat.mod_eq_of_lt hhb] at e
  rw [e, storedTime_after, callsSince_after]
  simp [setAttr, Ne.symm hhm, Ne.symm hhs, em, es]

/-- C13: for stored bytes `h`, `m`, `s` in 0..255, in range or not, a step
whose read and write succeed stores `(x + 1) % 60` (`% 24` for the hour),
computed without 8-bit wrap-around, so 255 becomes 16.  A tick reads the minute
exactly when `(s + 1) % 60 = 0`, that is for `s` in 59, 119, 179, 239, and
otherwise leaves minute and hour alone; the minute step reads the hour exactly
when `(m + 1) % 60 = 0`; the hour step carries no further.  When no call of the
tick fails, the minute becomes `(m + 1) % 60` exactly in that case and is kept
otherwise. -/
theorem increment_without_byte_wrap (c : ClockService) (ble : BLE) (hd : c.distinctHandles)
    (h m s : Nat) (ht : c.storedTime ble = (h, m, s))
    (hhb : h < 256) (hmb : m < 256) (hsb : s < 256)
    (rest : List ble_error_t) (hs : ble.script = BLE_ERROR_NONE :: BLE_ERROR_NONE :: rest) :
    ((c.storedTime (c.increment_second ble)).2.2 = (s + 1) % 60 ∧
      (Call.read c._minute_char.valueHandle ∈ (c.increment_second ble).callsSince ble
        ↔ (s + 1) % 60 = 0) ∧
      ((s + 1) % 60 = 0 ↔ s = 59 ∨ s = 119 ∨ s = 179 ∨ s = 239) ∧
      ((s + 1) % 60 ≠ 0 → c.storedTime (c.increment_second ble) = (h, m, (s + 1) % 60)) ∧
      (s = 255 → c.storedTime (c.increment_second ble) = (h, m, 16) ∧
        Call.read c._minute_char.valueHandle ∉ (c.increment_second ble).callsSince ble)) ∧
    ((c.storedTime (c.increment_minute ble)).2.1 = (m + 1) % 60 ∧
      (Call.read c._hour_char.valueHandle ∈ (c.increment_minute ble).callsSince ble
        ↔ (m + 1) % 60 = 0) ∧
      ((m + 1) % 60 = 0 ↔ m = 59 ∨ m = 119 ∨ m = 179 ∨ m = 239) ∧
      ((m + 1) % 60 ≠ 0 → c.storedTime (c.increment_minute ble) = (h, (m + 1) % 60, s)) ∧
      (m = 255 → c.storedTime (c.increment_minute ble) = (h, 16, s))) ∧
    (c.storedTime (c.increment_hour ble) = ((h + 1) % 24, m, s) ∧
      (c.increment_hour ble).callsSince ble =
        [Call.read c._hour_char.valueHandle,
          Call.write c._hour_char.valueHandle ((h + 1) % 24) false] ∧
      (h = 255 → c.storedTime (c.increment_hour ble) = (16, m, s))) ∧
    (ble.allSucceed →
      (c.storedTime (c.increment_second ble)).2.1
        = if (s + 1) % 60 = 0 then (m + 1) % 60 else m) := by
  have S := increment_second_byte c ble hd h m s ht hsb rest hs
  have M := increment_minute_byte c ble hd h m s ht hmb rest hs
  have H := increment_hour_byte c ble hd h m s ht hhb rest hs
  refine ⟨⟨S.1, S.2.1, by omega, S.2.2, ?_⟩, ⟨M.1, M.2.1, by omega, M.2.2, ?_⟩,
    ⟨H.1, H.2, ?_⟩, ?_⟩
  · intro h255
    have hne : (s + 1) % 60 ≠ 0 := by omega
    have h16 : (s + 1) % 60 = 16 := by omega
    refine ⟨by rw [S.2.2 hne, h16], fun hin => hne (S.2.1.mp hin)⟩
  · intro h255
    have hne : (m + 1) % 60 ≠ 0 := by omega
    have h16 : (m + 1) % 60 = 16 := by omega
    rw [M.2.2 hne, h16]
  · intro h255
    have h16 : (h + 1) % 24 = 16 := by omega
    rw [H.1, h16]
  · intro hok
    rw [(increment_second_storedTime c ble hd hok).1, ht]
    unfold nextTime
    simp only [Nat.mod_eq_of_lt hsb, Nat.mod_eq_of_lt hmb]
    split_ifs with h1 h2
    · exact h2.symm
    · rfl
    · rfl

/-- Witness of C13: the stored second 255 becomes 16 with no carry, and the
stored second 239 wraps to 0 and carries into minute and hour. -/
theorem increment_without_byte_wrap_witness :
    sampleClock.distinctHandles ∧
    sampleClock.storedTime (sampleClock.increment_second (sampleBLE 23 59 255 [0, 0]))
      = (23, 59, 16) ∧
    (sampleClock.increment_second (sampleBLE 23 59 255 [0, 0])).callsSince
        (sampleBLE 23 59 255 [0, 0])
      = [Call.read 18, Call.write 18 16 false] ∧
    Call.read 15 ∈ (sampleClock.increment_second (sampleBLE 23 59 239 [0, 0])).callsSince
        (sampleBLE 23 59 239 [0, 0]) ∧
    sampleClock.storedTime (sampleClock.increment_hour (sampleBLE 255 59 239 [0, 0]))
      = (16, 59, 239) :=
  ⟨by decide,
    ((increment_without_byte_wrap sampleClock (sampleBLE 23 59 255 [0, 0]) (by decide)
      23 59 255 rfl (by decide) (by decide) (by decide) [] rfl).1.2.2.2.2 rfl).1,
    by decide,
    (increment_without_byte_wrap sampleClock (sampleBLE 23 59 239 [0, 0]) (by decide)
      23 59 239 rfl (by decide) (by decide) (by decide) [] rfl).1.2.1.mpr (by decide),
    (increment_without_byte_wrap sampleClock (sampleBLE 255 59 239 [0, 0]) (by decide)
      255 59 239 rfl (by decide) (by decide) (by decide) [] rfl).2.2.1.2.2 rfl⟩

end EsysFinal
